import Mathlib

/-!
# Verification of promptdumper (src-tauri) against its specification

Shallow embedding of the Rust sources under `src-tauri/src/` (capture.rs,
ca.rs, llm_rules.rs, proxy/upstream.rs, proxy/mitm_service.rs,
proxy/mitm_handlers.rs, proxy/parse.rs, proxy/flows.rs) together with
proofs and refutations of the frozen claims.

Conventions:
* Rust byte buffers (`Vec<u8>`, `&[u8]`, `Bytes`) are `List Nat`, each
  element intended to be `< 256`.
* Rust `String`/`&str` values that the claims compare verbatim are Lean
  `String`s; buffers that are parsed byte-by-byte stay `List Nat`.
* Machine integers (`u16`, `usize`) are `Nat`; time arithmetic is `Int`
  seconds.
* External I/O (`tokio` reads) is modelled by the list of chunks the
  reader yields; end of the list is EOF (a read returning 0 bytes).
-/

namespace PD

/-! ## Byte-level helpers shared by several components -/

/-- The bytes of an ASCII string (each `Char` mapped to its code point).
Used to write concrete byte-buffer inputs. -/
def strBytes (s : String) : List Nat := s.data.map Char.toNat

/-- Rust `u8::to_ascii_lowercase` on a byte. -/
def byteLower (b : Nat) : Nat := if 65 ≤ b ∧ b ≤ 90 then b + 32 else b

/-- Rust `eq_ignore_ascii_case` on byte strings. -/
def bytesEqIC (a b : List Nat) : Bool := a.map byteLower == b.map byteLower

/-- ASCII whitespace bytes matched by Rust `char::is_whitespace` (the
inputs handled here are ASCII). -/
def isWsByte (b : Nat) : Bool := b == 32 || b == 9 || b == 10 || b == 11 || b == 12 || b == 13

/-- Rust `str::trim_start` (ASCII fragment). -/
def trimStartBytes (l : List Nat) : List Nat := l.dropWhile isWsByte

/-- Rust `str::trim` (ASCII fragment). -/
def trimBytes (l : List Nat) : List Nat :=
  ((l.dropWhile isWsByte).reverse.dropWhile isWsByte).reverse

/-- First index of byte `b` in `l` (Rust `memchr`). -/
def findByte (b : Nat) : List Nat → Option Nat
  | [] => none
  | x :: rest => if x = b then some 0 else (findByte b rest).map (· + 1)

/-- Split a byte string at the first occurrence of byte `b`
(Rust `str::split_once`): returns the parts before and after it. -/
def splitOnceByte (b : Nat) : List Nat → Option (List Nat × List Nat)
  | [] => none
  | x :: rest =>
    if x = b then some ([], rest)
    else (splitOnceByte b rest).map (fun p => (x :: p.1, p.2))

/-- Split a byte string on every occurrence of CRLF
(Rust `str::split("\r\n")`). -/
def splitOnCrlf : List Nat → List (List Nat)
  | [] => [[]]
  | 13 :: 10 :: rest => [] :: splitOnCrlf rest
  | x :: rest =>
    match splitOnCrlf rest with
    | [] => [[x]]
    | l :: ls => (x :: l) :: ls

/-- Whether `pat` occurs as a contiguous subsequence of `l`
(Rust `str::contains` / `windows(..).any(..)`). -/
def bytesHasSub (l pat : List Nat) : Bool :=
  match l with
  | [] => pat.isEmpty
  | _ :: rest => pat.isPrefixOf l || bytesHasSub rest pat

/-- Parse a non-negative decimal integer the way Rust
`str::parse::<u16>` / `parse::<usize>` accepts it: optional leading `+`,
then one or more ASCII digits. Returns the value (unbounded; the `u16`
range check is applied at the call sites that need it). -/
def parseDecDigits : List Nat → Option Nat
  | [] => none
  | l =>
    if l.all (fun b => 48 ≤ b ∧ b ≤ 57) then
      some (l.foldl (fun acc b => acc * 10 + (b - 48)) 0)
    else none

/-- Rust integer parsing with the optional `+` sign. -/
def parseRustNat (l : List Nat) : Option Nat :=
  match l with
  | 43 :: rest => parseDecDigits rest
  | _ => parseDecDigits l

/-- Rust `str::parse::<u16>().unwrap_or(d)`. -/
def parseU16Or (d : Nat) (l : List Nat) : Nat :=
  match parseRustNat l with
  | some v => if v ≤ 65535 then v else d
  | none => d

/-- Lossy UTF-8 decoding restricted to ASCII: bytes `< 128` become their
character, any other byte becomes U+FFFD. This coincides with Rust
`String::from_utf8_lossy` on ASCII input; multi-byte sequences differ
only in which non-ASCII characters appear, which no claim inspects. -/
def bytesLossy (l : List Nat) : String := ⟨l.map (fun b => if b < 128 then Char.ofNat b else '�')⟩

/-! ## Base64 (the `base64` crate's STANDARD engine)

`general_purpose::STANDARD`: the standard alphabet, padding with `=` on
encode, canonical padding and zero trailing bits required on decode. -/

/-- The standard base64 alphabet: 6-bit value to ASCII byte. -/
def b64char (n : Nat) : Nat :=
  if n < 26 then 65 + n
  else if n < 52 then 97 + (n - 26)
  else if n < 62 then 48 + (n - 52)
  else if n = 62 then 43
  else 47

/-- Inverse of the standard base64 alphabet. -/
def b64dechar (c : Nat) : Option Nat :=
  if 65 ≤ c ∧ c ≤ 90 then some (c - 65)
  else if 97 ≤ c ∧ c ≤ 122 then some (c - 97 + 26)
  else if 48 ≤ c ∧ c ≤ 57 then some (c - 48 + 52)
  else if c = 43 then some 62
  else if c = 47 then some 63
  else none

/-- base64-encode a byte string (STANDARD engine, with padding). -/
def b64encode : List Nat → List Nat
  | [] => []
  | [a] => [b64char (a / 4), b64char (a % 4 * 16), 61, 61]
  | [a, b] => [b64char (a / 4), b64char (a % 4 * 16 + b / 16), b64char (b % 16 * 4), 61]
  | a :: b :: c :: rest =>
    [b64char (a / 4), b64char (a % 4 * 16 + b / 16),
      b64char (b % 16 * 4 + c / 64), b64char (c % 64)] ++ b64encode rest

/-- base64-decode (STANDARD engine: canonical padding, trailing bits must
be zero). -/
def b64decode : List Nat → Option (List Nat)
  | [] => some []
  | c1 :: c2 :: c3 :: c4 :: rest =>
    if rest = [] ∧ c3 = 61 ∧ c4 = 61 then do
      let a ← b64dechar c1
      let b ← b64dechar c2
      if b % 16 = 0 then some [a * 4 + b / 16] else none
    else if rest = [] ∧ c4 = 61 then do
      let a ← b64dechar c1
      let b ← b64dechar c2
      let c ← b64dechar c3
      if c % 4 = 0 then some [a * 4 + b / 16, b % 16 * 16 + c / 4] else none
    else do
      let a ← b64dechar c1
      let b ← b64dechar c2
      let c ← b64dechar c3
      let d ← b64dechar c4
      let tail ← b64decode rest
      some ((a * 4 + b / 16) :: (b % 16 * 16 + c / 4) :: (c % 4 * 64 + d) :: tail)
  | _ => none

theorem b64dechar_b64char {n : Nat} (h : n < 64) : b64dechar (b64char n) = some n := by
  revert n h; decide

theorem b64char_ne_61 {n : Nat} (h : n < 64) : b64char n ≠ 61 := by
  revert n h; decide

theorem b64_roundtrip : ∀ (l : List Nat), (∀ x ∈ l, x < 256) →
    b64decode (b64encode l) = some l := by
  intro l
  induction l using b64encode.induct with
  | case1 => intro _; rfl
  | case2 a =>
    intro h
    have ha : a < 256 := h a (by simp)
    have h1 : a / 4 < 64 := by omega
    have h2 : a % 4 * 16 < 64 := by omega
    rw [show b64encode [a] = [b64char (a / 4), b64char (a % 4 * 16), 61, 61] from rfl]
    rw [b64decode]
    rw [if_pos (by simp [b64char_ne_61 h2])]
    simp only [b64dechar_b64char h1, b64dechar_b64char h2,
      Option.bind_eq_bind, Option.some_bind]
    rw [if_pos (by omega)]
    have e1 : a / 4 * 4 + a % 4 * 16 / 16 = a := by omega
    rw [e1]
  | case3 a b =>
    intro h
    have ha : a < 256 := h a (by simp)
    have hb : b < 256 := h b (by simp)
    have h1 : a / 4 < 64 := by omega
    have h2 : a % 4 * 16 + b / 16 < 64 := by omega
    have h3 : b % 16 * 4 < 64 := by omega
    rw [show b64encode [a, b]
        = [b64char (a / 4), b64char (a % 4 * 16 + b / 16), b64char (b % 16 * 4), 61] from rfl]
    rw [b64decode]
    rw [if_neg (by simp [b64char_ne_61 h3])]
    rw [if_pos (by simp)]
    simp only [b64dechar_b64char h1, b64dechar_b64char h2, b64dechar_b64char h3,
      Option.bind_eq_bind, Option.some_bind]
    rw [if_pos (by omega)]
    have e1 : a / 4 * 4 + (a % 4 * 16 + b / 16) / 16 = a := by omega
    have e2 : (a % 4 * 16 + b / 16) % 16 * 16 + b % 16 * 4 / 4 = b := by omega
    rw [e1, e2]
  | case4 a b c rest ih =>
    intro h
    have ha : a < 256 := h a (by simp)
    have hb : b < 256 := h b (by simp)
    have hc : c < 256 := h c (by simp)
    have hrest : ∀ x ∈ rest, x < 256 := fun x hx => h x (by simp [hx])
    have h1 : a / 4 < 64 := by omega
    have h2 : a % 4 * 16 + b / 16 < 64 := by omega
    have h3 : b % 16 * 4 + c / 64 < 64 := by omega
    have h4 : c % 64 < 64 := by omega
    rw [show b64encode (a :: b :: c :: rest)
        = b64char (a / 4) :: b64char (a % 4 * 16 + b / 16) ::
          b64char (b % 16 * 4 + c / 64) :: b64char (c % 64) :: b64encode rest from rfl]
    rw [b64decode]
    rw [if_neg (by simp [b64char_ne_61 h3])]
    rw [if_neg (by simp [b64char_ne_61 h4])]
    simp only [b64dechar_b64char h1, b64dechar_b64char h2, b64dechar_b64char h3,
      b64dechar_b64char h4, Option.bind_eq_bind, Option.some_bind, ih hrest]
    have e1 : a / 4 * 4 + (a % 4 * 16 + b / 16) / 16 = a := by omega
    have e2 : (a % 4 * 16 + b / 16) % 16 * 16 + (b % 16 * 4 + c / 64) / 4 = b := by omega
    have e3 : (b % 16 * 4 + c / 64) % 4 * 64 + c % 64 = c := by omega
    rw [e1, e2, e3]

/-! ## capture.rs: ConnectionKey -/

/-- The colon-joined `ip:port` endpoint string built by the format
call in `ConnectionKey::new` (capture.rs). -/
def endpointStr (ip : String) (port : Nat) : String := ip ++ ":" ++ toString port

/-- `ConnectionKey` (capture.rs): pair of canonicalised endpoint strings.
Its Rust `PartialEq` compares both fields, which is exactly structural
equality here. -/
structure ConnectionKey where
  a : String
  b : String
deriving DecidableEq, Repr

/-- `ConnectionKey::new` (capture.rs): order the two `ip:port` strings
lexicographically (Rust `String` `<=`), smaller first. -/
def ConnectionKey.new (srcIp : String) (srcPort : Nat) (dstIp : String) (dstPort : Nat) :
    ConnectionKey :=
  let left := endpointStr srcIp srcPort
  let right := endpointStr dstIp dstPort
  if left ≤ right then ⟨left, right⟩ else ⟨right, left⟩

/-! ## ca.rs: leaf-certificate parameters -/

/-- Extended key usages (rcgen `ExtendedKeyUsagePurpose`). -/
inductive ExtKeyUsage
  | serverAuth
  | clientAuth
deriving DecidableEq, Repr

/-- Key usages (rcgen `KeyUsagePurpose`). -/
inductive KeyUsage
  | digitalSignature
  | keyCertSign
  | crlSign
deriving DecidableEq, Repr

/-- Signature algorithms used by ca.rs (rcgen `SignatureAlgorithm`). -/
inductive SigAlg
  | ecdsaP256Sha256
deriving DecidableEq, Repr

/-- Smallest unix timestamp representable by the `time` crate's
`OffsetDateTime` (-9999-01-01T00:00:00Z); `saturating_sub` clamps here. -/
def tsMin : Int := -377705116800

/-- Largest unix timestamp representable by the `time` crate's
`OffsetDateTime` (9999-12-31T23:59:59Z); `checked_add` fails beyond it. -/
def tsMax : Int := 253402300799

/-- Seconds per day (`Duration::days`). -/
def secPerDay : Int := 86400

/-- The certificate parameters `generate_leaf_cert_for_host` (ca.rs)
fills in before handing them to rcgen for serialisation. -/
structure LeafCertParams where
  subjectAltNames : List String
  commonName : String
  notBefore : Int
  notAfter : Int
  alg : SigAlg
  extendedKeyUsages : List ExtKeyUsage
  keyUsages : List KeyUsage
deriving DecidableEq, Repr

/-- `generate_leaf_cert_for_host` (ca.rs), leaf-parameter part: rcgen
`CertificateParams::new(vec![host])` makes `host` the only SAN; the code
then sets `not_before = now.saturating_sub(1 day)`,
`not_after = not_before.checked_add(397 days)` (an error when that
overflows the representable range), pushes `host` as the CN, selects
ECDSA P-256, `ServerAuth` EKU and `DigitalSignature` key usage. `now` is
the wall clock (`OffsetDateTime::now_utc`), passed as a parameter. -/
def generate_leaf_cert_for_host (host : String) (now : Int) : Option LeafCertParams :=
  let nb := max tsMin (now - 1 * secPerDay)
  match (if nb + 397 * secPerDay ≤ tsMax then some (nb + 397 * secPerDay) else none) with
  | none => none
  | some na =>
    some
      { subjectAltNames := [host]
        commonName := host
        notBefore := nb
        notAfter := na
        alg := SigAlg.ecdsaP256Sha256
        extendedKeyUsages := [ExtKeyUsage.serverAuth]
        keyUsages := [KeyUsage.digitalSignature] }

/-- C8: `ConnectionKey` construction is direction-agnostic: swapping the
source and destination endpoints yields the same key, because the two
`ip:port` strings are put in lexicographic order before being stored. -/
theorem connectionKey_direction_agnostic
    (srcIp : String) (srcPort : Nat) (dstIp : String) (dstPort : Nat) :
    ConnectionKey.new srcIp srcPort dstIp dstPort
      = ConnectionKey.new dstIp dstPort srcIp srcPort := by
  unfold ConnectionKey.new
  by_cases h1 : endpointStr srcIp srcPort ≤ endpointStr dstIp dstPort
  · by_cases h2 : endpointStr dstIp dstPort ≤ endpointStr srcIp srcPort
    · have heq := le_antisymm h1 h2
      simp [heq]
    · simp [h1, h2]
  · have h2 : endpointStr dstIp dstPort ≤ endpointStr srcIp srcPort :=
      (le_total (endpointStr srcIp srcPort) (endpointStr dstIp dstPort)).resolve_left h1
    simp [h1, h2]

/-- C2: every leaf produced by `generate_leaf_cert_for_host` carries the
host as sole SAN and as CN, the ServerAuth EKU, the DigitalSignature key
usage, ECDSA P-256, and has `notBefore = now − 1 day`,
`notAfter = notBefore + 397 days`; hence its lifetime is ≤ 398 days and
the issuance instant lies in `[notBefore − 2d, notAfter + 2d]`.
The hypotheses keep `now` inside the `time` crate's representable range,
where `saturating_sub` does not clamp and `checked_add` succeeds. -/
theorem leaf_cert_validity (host : String) (now : Int)
    (h1 : tsMin + secPerDay ≤ now) (h2 : now + 396 * secPerDay ≤ tsMax) :
    ∃ p, generate_leaf_cert_for_host host now = some p ∧
      p.subjectAltNames = [host] ∧ p.commonName = host ∧
      p.extendedKeyUsages = [ExtKeyUsage.serverAuth] ∧
      p.keyUsages = [KeyUsage.digitalSignature] ∧
      p.alg = SigAlg.ecdsaP256Sha256 ∧
      p.notBefore = now - secPerDay ∧
      p.notAfter = p.notBefore + 397 * secPerDay ∧
      p.notAfter - p.notBefore ≤ 398 * secPerDay ∧
      p.notBefore - 2 * secPerDay ≤ now ∧ now ≤ p.notAfter + 2 * secPerDay := by
  have hnb : max tsMin (now - 1 * secPerDay) = now - secPerDay := by
    rw [max_eq_right]; · ring_nf
    unfold tsMin secPerDay at *; omega
  have hchk : (now - secPerDay) + 397 * secPerDay ≤ tsMax := by
    unfold tsMin tsMax secPerDay at *; omega
  refine ⟨{ subjectAltNames := [host], commonName := host, notBefore := now - secPerDay,
            notAfter := now - secPerDay + 397 * secPerDay, alg := SigAlg.ecdsaP256Sha256,
            extendedKeyUsages := [ExtKeyUsage.serverAuth],
            keyUsages := [KeyUsage.digitalSignature] },
          ?_, rfl, rfl, rfl, rfl, rfl, rfl, rfl, ?_, ?_, ?_⟩
  · simp only [generate_leaf_cert_for_host, hnb, if_pos hchk]
  all_goals
    simp only []
    unfold secPerDay
    omega

/-- Witness for C2 at a concrete host and clock value. -/
theorem leaf_cert_validity_witness :
    ∃ p, generate_leaf_cert_for_host "example.com" 1700000000 = some p ∧
      p.subjectAltNames = ["example.com"] ∧ p.commonName = "example.com" ∧
      p.extendedKeyUsages = [ExtKeyUsage.serverAuth] ∧
      p.keyUsages = [KeyUsage.digitalSignature] ∧
      p.alg = SigAlg.ecdsaP256Sha256 ∧
      p.notBefore = 1700000000 - secPerDay ∧
      p.notAfter = p.notBefore + 397 * secPerDay ∧
      p.notAfter - p.notBefore ≤ 398 * secPerDay ∧
      p.notBefore - 2 * secPerDay ≤ 1700000000 ∧ 1700000000 ≤ p.notAfter + 2 * secPerDay :=
  leaf_cert_validity "example.com" 1700000000 (by decide) (by decide)

/-! ## proxy/upstream.rs: read_http_response_head -/

/-- First index at which `\r\n\r\n` occurs in `l`
(Rust `memchr::memmem::find(&buf, b"\r\n\r\n")`). -/
def findSeq4 : List Nat → Option Nat
  | [] => none
  | x :: rest =>
    if [13, 10, 13, 10].isPrefixOf (x :: rest) then some 0
    else (findSeq4 rest).map (· + 1)

/-- The accumulate-until-`\r\n\r\n` loop of `read_http_response_head`
(upstream.rs). `chunks` are the byte slices that successive
`reader.read` calls yield (each at most 8192 bytes, the size of the
temporary read buffer); the end of the list, or an empty chunk, is EOF.
The 256 KiB cap is checked at the top of each iteration, before the next
read. Returns the accumulated buffer and the position of the first
`\r\n\r\n` in it. -/
def readHeadLoop : List (List Nat) → List Nat → Except String (List Nat × Nat)
  | chunks, buf =>
    if buf.length > 262144 then .error "response header too large"
    else
      match chunks with
      | [] => .error "upstream closed before sending headers"
      | c :: rest =>
        if c = [] then .error "upstream closed before sending headers"
        else
          match findSeq4 (buf ++ c) with
          | some pos => .ok (buf ++ c, pos)
          | none => readHeadLoop rest (buf ++ c)

/-- Header lines of the response head (upstream.rs): skip the status
line, stop at the first empty line, keep only lines containing `:`,
trimming name and value. -/
def parseHeaderLines : List (List Nat) → List (List Nat × List Nat)
  | [] => []
  | line :: rest =>
    if line = [] then []
    else
      match splitOnceByte 58 line with
      | some (n, v) => (trimBytes n, trimBytes v) :: parseHeaderLines rest
      | none => parseHeaderLines rest

/-- Rust `str::trim_start_matches("HTTP/")`: remove every leading copy
of `HTTP/` (bytes 72 84 84 80 47). -/
def stripHttp : List Nat → List Nat
  | 72 :: 84 :: 84 :: 80 :: 47 :: rest => stripHttp rest
  | l => l

/-- Rust `str::splitn(3, ' ')` on a byte string: at most three parts,
the last one keeping any further spaces. -/
def splitn3Space (l : List Nat) : List (List Nat) :=
  match splitOnceByte 32 l with
  | none => [l]
  | some (a, rest) =>
    match splitOnceByte 32 rest with
    | none => [a, rest]
    | some (b, rest2) => [a, b, rest2]

/-- Status-line parsing of `read_http_response_head` (upstream.rs):
defaults are status 200, version `1.1`, empty reason; they are replaced
only when the first line starts with `HTTP/` and splits into at least
two space-separated parts. Returns `(status, version, reason)`. -/
def parseStatusLine (first : List Nat) : Nat × List Nat × List Nat :=
  if (strBytes "HTTP/").isPrefixOf first then
    match splitn3Space (trimBytes first) with
    | [p0, p1] => (parseU16Or 200 p1, stripHttp p0, [])
    | [p0, p1, p2] => (parseU16Or 200 p1, stripHttp p0, trimBytes p2)
    | _ => (200, strBytes "1.1", [])
  else (200, strBytes "1.1", [])

/-- Parsed response head: what `read_http_response_head` returns. -/
structure RespHead where
  status : Nat
  version : List Nat
  reason : List Nat
  headers : List (List Nat × List Nat)
  bodyAfterHead : List Nat
deriving DecidableEq, Repr

/-- The parsing phase of `read_http_response_head` (upstream.rs), run
once the loop found `\r\n\r\n` at `headEnd` in `buf`: first line up to
the first LF, header lines from `buf[..headEnd]`, status line with
defaults, and the bytes after the head. -/
def parseRespHead (buf : List Nat) (headEnd : Nat) : RespHead :=
  let firstLineEnd := (findByte 10 buf).getD buf.length
  let first := buf.take firstLineEnd
  let headers := parseHeaderLines (splitOnCrlf (buf.take headEnd)).tail
  let sv := parseStatusLine first
  let body := if headEnd + 4 < buf.length then buf.drop (headEnd + 4) else []
  ⟨sv.1, sv.2.1, sv.2.2, headers, body⟩

/-- `read_http_response_head` (upstream.rs) over the chunk sequence a
reader yields. -/
def read_http_response_head (chunks : List (List Nat)) : Except String RespHead :=
  match readHeadLoop chunks [] with
  | .error e => .error e
  | .ok (buf, pos) => .ok (parseRespHead buf pos)

theorem isPrefixOf_append_of_le {pat l : List Nat} (m : List Nat) (h : pat.length ≤ l.length) :
    pat.isPrefixOf (l ++ m) = pat.isPrefixOf l := by
  rw [Bool.eq_iff_iff]
  simp only [List.isPrefixOf_iff_prefix]
  constructor
  · intro hp
    rw [List.prefix_iff_eq_take] at hp ⊢
    rwa [List.take_append_of_le_length h] at hp
  · intro hp
    exact hp.trans (List.prefix_append l m)

theorem findSeq4_some_le {l : List Nat} {p : Nat} (h : findSeq4 l = some p) : p + 4 ≤ l.length := by
  induction l generalizing p with
  | nil => simp [findSeq4] at h
  | cons x rest ih =>
    rw [findSeq4] at h
    by_cases hp : [13, 10, 13, 10].isPrefixOf (x :: rest) = true
    · rw [if_pos hp] at h
      have hlen : 4 ≤ (x :: rest).length :=
        List.IsPrefix.length_le (List.isPrefixOf_iff_prefix.mp hp)
      cases h
      omega
    · rw [if_neg hp] at h
      match hq : findSeq4 rest with
      | none => rw [hq] at h; simp at h
      | some q =>
        rw [hq] at h
        simp only [Option.map_some', Option.some.injEq] at h
        have := ih hq
        simp only [List.length_cons]
        omega

theorem findSeq4_append_left {l : List Nat} {p : Nat} (h : findSeq4 l = some p) (m : List Nat) :
    findSeq4 (l ++ m) = some p := by
  induction l generalizing p with
  | nil => simp [findSeq4] at h
  | cons x rest ih =>
    have hlen : p + 4 ≤ (x :: rest).length := findSeq4_some_le h
    have hagree : [13, 10, 13, 10].isPrefixOf ((x :: rest) ++ m)
        = [13, 10, 13, 10].isPrefixOf (x :: rest) :=
      isPrefixOf_append_of_le m (by simpa using (by omega : 4 ≤ (x :: rest).length))
    rw [findSeq4] at h
    rw [List.cons_append, findSeq4, ← List.cons_append, hagree]
    by_cases hp : [13, 10, 13, 10].isPrefixOf (x :: rest) = true
    · rw [if_pos hp] at h ⊢; exact h
    · rw [if_neg hp] at h ⊢
      match hq : findSeq4 rest with
      | none => rw [hq] at h; simp at h
      | some q =>
        rw [hq] at h
        simp only [Option.map_some', Option.some.injEq] at h
        subst h
        rw [ih hq]
        simp

theorem findSeq4_append_rev {l m : List Nat} {p : Nat} (h : findSeq4 (l ++ m) = some p)
    (hle : p + 4 ≤ l.length) : findSeq4 l = some p := by
  induction l generalizing p with
  | nil => simp at hle
  | cons x rest ih =>
    have hagree : [13, 10, 13, 10].isPrefixOf ((x :: rest) ++ m)
        = [13, 10, 13, 10].isPrefixOf (x :: rest) :=
      isPrefixOf_append_of_le m
        (by simpa using (by omega : 4 ≤ (x :: rest).length))
    rw [List.cons_append, findSeq4, ← List.cons_append, hagree] at h
    rw [findSeq4]
    by_cases hp : [13, 10, 13, 10].isPrefixOf (x :: rest) = true
    · rw [if_pos hp] at h ⊢; exact h
    · rw [if_neg hp] at h ⊢
      match hq : findSeq4 (rest ++ m) with
      | none => rw [hq] at h; simp at h
      | some q =>
        rw [hq] at h
        simp only [Option.map_some', Option.some.injEq] at h
        subst h
        have hqp : q + 4 ≤ rest.length := by
          simp only [List.length_cons] at hle
          omega
        rw [ih hq hqp]
        simp

theorem findSeq4_none_append {l m : List Nat} (h : findSeq4 (l ++ m) = none) :
    findSeq4 l = none := by
  match hq : findSeq4 l with
  | none => rfl
  | some q => rw [findSeq4_append_left hq m] at h; cases h

theorem findSeq4_take_some {l : List Nat} {k p : Nat} (h : findSeq4 (l.take k) = some p) :
    findSeq4 l = some p := by
  have := findSeq4_append_left h (l.drop k)
  rwa [List.take_append_drop] at this

theorem findSeq4_replicate_append {a : Nat} (ha : a ≠ 13) (n : Nat) (l : List Nat) :
    findSeq4 (List.replicate n a ++ l) = (findSeq4 l).map (· + n) := by
  induction n with
  | zero => simp
  | succ n ih =>
    rw [List.replicate_succ, List.cons_append, findSeq4]
    have hp : [13, 10, 13, 10].isPrefixOf (a :: (List.replicate n a ++ l)) = false := by
      simp [List.isPrefixOf, Ne.symm ha]
    rw [if_neg (by simp [hp]), ih]
    cases findSeq4 l <;> simp
    omega

theorem findSeq4_replicate {a : Nat} (ha : a ≠ 13) (n : Nat) :
    findSeq4 (List.replicate n a) = none := by
  have := findSeq4_replicate_append ha n []
  simpa [findSeq4] using this

theorem readHeadLoop_ok_of_within :
    ∀ (chunks : List (List Nat)) (buf : List Nat), (∀ c ∈ chunks, c ≠ []) →
    findSeq4 buf = none →
    (findSeq4 ((buf ++ chunks.flatten).take 262144)).isSome →
    ∃ v, readHeadLoop chunks buf = .ok v := by
  intro chunks
  induction chunks with
  | nil =>
    intro buf _ hnone hsome
    exfalso
    simp only [List.flatten_nil, List.append_nil] at hsome
    match hfk : findSeq4 (buf.take 262144) with
    | none => rw [hfk] at hsome; simp at hsome
    | some p => rw [findSeq4_take_some hfk] at hnone; cases hnone
  | cons c rest ih =>
    intro buf hne hnone hsome
    match hfk : findSeq4 ((buf ++ (c :: rest).flatten).take 262144) with
    | none => rw [hfk] at hsome; simp at hsome
    | some p =>
    have hplen : p + 4 ≤ 262144 := by
      have := findSeq4_some_le hfk
      have : ((buf ++ (c :: rest).flatten).take 262144).length ≤ 262144 := by
        simp [List.length_take]
      omega
    have hfull : findSeq4 (buf ++ (c :: rest).flatten) = some p := findSeq4_take_some hfk
    have hbuflen : buf.length ≤ p + 3 := by
      by_contra hgt
      push_neg at hgt
      have : findSeq4 buf = some p := findSeq4_append_rev hfull (by omega)
      rw [this] at hnone; cases hnone
    rw [readHeadLoop]
    rw [if_neg (by omega)]
    rw [if_neg (by simpa using hne c (by simp))]
    match hbc : findSeq4 (buf ++ c) with
    | some q => exact ⟨_, rfl⟩
    | none =>
      apply ih (buf ++ c) (fun d hd => hne d (by simp [hd])) hbc
      rw [List.flatten_cons, ← List.append_assoc] at hfk
      rw [hfk]
      simp

theorem readHeadLoop_error_of_none :
    ∀ (chunks : List (List Nat)) (buf : List Nat),
    findSeq4 (buf ++ chunks.flatten) = none →
    ∃ e, readHeadLoop chunks buf = .error e := by
  intro chunks
  induction chunks with
  | nil =>
    intro buf _
    rw [readHeadLoop]
    by_cases hlen : buf.length > 262144
    · rw [if_pos hlen]; exact ⟨_, rfl⟩
    · rw [if_neg hlen]; exact ⟨_, rfl⟩
  | cons c rest ih =>
    intro buf hnone
    rw [readHeadLoop]
    by_cases hlen : buf.length > 262144
    · rw [if_pos hlen]; exact ⟨_, rfl⟩
    rw [if_neg hlen]
    by_cases hc : c = []
    · rw [if_pos hc]; exact ⟨_, rfl⟩
    rw [if_neg hc]
    rw [List.flatten_cons, ← List.append_assoc] at hnone
    have hbc : findSeq4 (buf ++ c) = none := findSeq4_none_append hnone
    rw [hbc]
    exact ih (buf ++ c) hnone

theorem take_replicate_append (a : Nat) (m : List Nat) :
    ∀ n, (List.replicate n a ++ m).take n = List.replicate n a := by
  intro n
  induction n with
  | zero => simp
  | succ n ih => simp [List.replicate_succ, ih]

theorem flatten_replicate (m k a : Nat) :
    (List.replicate m (List.replicate k a)).flatten = List.replicate (m * k) a := by
  induction m with
  | zero => simp
  | succ m ih =>
    rw [List.replicate_succ, List.flatten_cons, ih, ← List.replicate_add]
    congr 1
    ring

theorem readHeadLoop_replicate_step :
    ∀ (m j : Nat) (rest : List (List Nat)), 8192 * m + j ≤ 262144 →
    readHeadLoop (List.replicate m (List.replicate 8192 97) ++ rest) (List.replicate j 97)
      = readHeadLoop rest (List.replicate (j + 8192 * m) 97) := by
  intro m
  induction m with
  | zero => intro j rest _; simp
  | succ m ih =>
    intro j rest h
    rw [List.replicate_succ, List.cons_append, readHeadLoop]
    rw [if_neg (by simp only [List.length_replicate]; omega)]
    rw [if_neg (show ¬(List.replicate 8192 97 = ([] : List Nat)) from fun hnil => by
      have h2 := congrArg List.length hnil
      rw [List.length_replicate, List.length_nil] at h2
      exact absurd h2 (by norm_num))]
    rw [← List.replicate_add, findSeq4_replicate (by decide)]
    show readHeadLoop (List.replicate m (List.replicate 8192 97) ++ rest)
        (List.replicate (j + 8192) 97) = _
    rw [ih (j + 8192) rest (by omega)]
    have harith : j + 8192 + 8192 * m = j + 8192 * (m + 1) := by ring
    rw [harith]

/-- Reader chunks that exercise the 256 KiB boundary: 32 full 8 KiB
reads of filler, then a read whose `\r\n\r\n` starts at offset 262146,
beyond the first 256 KiB. -/
def capBoundaryChunks : List (List Nat) :=
  List.replicate 32 (List.replicate 8192 97) ++ [[97, 97, 13, 10, 13, 10]]

theorem capBoundaryChunks_loop :
    readHeadLoop capBoundaryChunks []
      = .ok (List.replicate 262146 97 ++ [13, 10, 13, 10], 262146) := by
  have step := readHeadLoop_replicate_step 32 0 [[97, 97, 13, 10, 13, 10]] (by omega)
  rw [List.replicate_zero] at step
  norm_num at step
  rw [capBoundaryChunks, step]
  rw [readHeadLoop]
  rw [if_neg (by simp only [List.length_replicate]; omega)]
  rw [if_neg (by simp)]
  have hsplit : ([97, 97, 13, 10, 13, 10] : List Nat)
      = List.replicate 2 97 ++ [13, 10, 13, 10] := rfl
  rw [hsplit, ← List.append_assoc, ← List.replicate_add]
  norm_num
  rw [findSeq4_replicate_append (by decide)]
  have hfind : findSeq4 [13, 10, 13, 10] = some 0 := rfl
  rw [hfind]
  rfl

theorem capBoundaryChunks_flatten :
    capBoundaryChunks.flatten = List.replicate 262146 97 ++ [13, 10, 13, 10] := by
  rw [capBoundaryChunks, List.flatten_append, flatten_replicate]
  norm_num
  have hsplit : ([97, 97, 13, 10, 13, 10] : List Nat)
      = List.replicate 2 97 ++ [13, 10, 13, 10] := rfl
  simp only [List.flatten_cons, List.flatten_nil, List.append_nil, hsplit]
  rw [← List.append_assoc, ← List.replicate_add]

/-- C4 (amended): once the loop has found `\r\n\r\n` the call succeeds,
an occurrence of `\r\n\r\n` wholly inside the first 256 KiB of the input
always leads to success, and an input with no `\r\n\r\n` at all always
leads to an error (cap exceeded or EOF). The cap is only checked before
a read, so an occurrence first completed by the read that pushes the
buffer past 256 KiB also succeeds (see the counterexample). -/
theorem respHead_cap_amended :
    (∀ chunks : List (List Nat), (∀ c ∈ chunks, c ≠ []) →
      (findSeq4 (chunks.flatten.take 262144)).isSome →
      ∃ r, read_http_response_head chunks = .ok r) ∧
    (∀ chunks : List (List Nat), findSeq4 chunks.flatten = none →
      ∃ e, read_http_response_head chunks = .error e) := by
  constructor
  · intro chunks hne hsome
    obtain ⟨⟨buf, pos⟩, hv⟩ :=
      readHeadLoop_ok_of_within chunks [] hne rfl (by simpa using hsome)
    exact ⟨parseRespHead buf pos, by simp only [read_http_response_head, hv]⟩
  · intro chunks hnone
    obtain ⟨e, he⟩ := readHeadLoop_error_of_none chunks [] (by simpa using hnone)
    exact ⟨e, by simp only [read_http_response_head, he]⟩

/-- Witness for C4: a head completed within the first read succeeds; an
input closed before any `\r\n\r\n` errors. -/
theorem respHead_cap_amended_witness :
    (∃ r, read_http_response_head [strBytes "HTTP/1.1 200 OK\r\n\r\nX"] = .ok r) ∧
    (∃ e, read_http_response_head [strBytes "HTTP"] = .error e) :=
  ⟨respHead_cap_amended.1 [strBytes "HTTP/1.1 200 OK\r\n\r\nX"] (by decide) (by decide),
   respHead_cap_amended.2 [strBytes "HTTP"] (by decide)⟩

/-- C4 counterexample: this input has no `\r\n\r\n` within its first
256 KiB, yet `read_http_response_head` succeeds, because the final
8 KiB-bounded read extends the buffer to 262150 bytes and the cap is
checked only before a read. The claimed equivalence "succeeds iff
`\r\n\r\n` occurs within the first 256 KiB" therefore fails. -/
theorem respHead_cap_counterexample :
    (∃ r, read_http_response_head capBoundaryChunks = .ok r) ∧
    findSeq4 (capBoundaryChunks.flatten.take 262144) = none := by
  constructor
  · refine ⟨parseRespHead (List.replicate 262146 97 ++ [13, 10, 13, 10]) 262146, ?_⟩
    rw [read_http_response_head, capBoundaryChunks_loop]
  · rw [capBoundaryChunks_flatten]
    have h2 : List.replicate 262146 97 ++ [13, 10, 13, 10]
        = List.replicate 262144 97 ++ (List.replicate 2 97 ++ [13, 10, 13, 10]) := by
      have harith : (262146 : Nat) = 262144 + 2 := by norm_num
      rw [harith, List.replicate_add, List.append_assoc]
    rw [h2, take_replicate_append]
    exact findSeq4_replicate (by decide) 262144

/-- C7: the split response head
`"HTTP/1.1 302 Found\r\nConte" / "nt-Length: 137\r\nLocation: https://www.qq.com/\r\n\r\nBODY"`
parses to status 302, version `1.1`, reason `Found`, a header list
including `Location: https://www.qq.com/`, and trailing body `BODY`. -/
theorem split_head_response_parse :
    ∃ r, read_http_response_head
        [strBytes "HTTP/1.1 302 Found\r\nConte",
         strBytes "nt-Length: 137\r\nLocation: https://www.qq.com/\r\n\r\nBODY"]
      = .ok r ∧
      r.status = 302 ∧ r.version = strBytes "1.1" ∧ r.reason = strBytes "Found" ∧
      (strBytes "Location", strBytes "https://www.qq.com/") ∈ r.headers ∧
      r.bodyAfterHead = strBytes "BODY" := by
  refine ⟨⟨302, strBytes "1.1", strBytes "Found",
      [(strBytes "Content-Length", strBytes "137"),
       (strBytes "Location", strBytes "https://www.qq.com/")],
      strBytes "BODY"⟩, by rfl, rfl, rfl, rfl, by simp, rfl⟩

/-- Whether Rust `str::parse::<u16>` accepts this byte string. -/
def validU16 (l : List Nat) : Bool :=
  match parseRustNat l with
  | some v => v ≤ 65535
  | none => false

theorem parseU16Or_of_invalid {l : List Nat} (h : validU16 l = false) (d : Nat) :
    parseU16Or d l = d := by
  rw [parseU16Or]
  rw [validU16] at h
  match hv : parseRustNat l with
  | none => rfl
  | some v =>
    rw [hv] at h
    simp only [decide_eq_false_iff_not] at h
    simp [h]

/-- C10 (amended): the response-head parse never fails once `\r\n\r\n`
has been found; when the first line does not start with `HTTP/`, or
splits into fewer than two space-separated parts, all three defaults
(status 200, version `1.1`, empty reason) are returned; when the line is
otherwise well formed but its status token is not a valid `u16`, only
the status falls back to 200 — version and reason are still taken from
the line. -/
theorem status_line_defaults_amended :
    (∀ (chunks : List (List Nat)) (v : List Nat × Nat),
      readHeadLoop chunks [] = .ok v → ∃ r, read_http_response_head chunks = .ok r) ∧
    (∀ first : List Nat, ¬ (strBytes "HTTP/").isPrefixOf first →
      parseStatusLine first = (200, strBytes "1.1", [])) ∧
    (∀ (first p0 : List Nat), (strBytes "HTTP/").isPrefixOf first →
      splitn3Space (trimBytes first) = [p0] →
      parseStatusLine first = (200, strBytes "1.1", [])) ∧
    (∀ (first p0 p1 : List Nat), (strBytes "HTTP/").isPrefixOf first →
      splitn3Space (trimBytes first) = [p0, p1] → validU16 p1 = false →
      parseStatusLine first = (200, stripHttp p0, [])) ∧
    (∀ (first p0 p1 p2 : List Nat), (strBytes "HTTP/").isPrefixOf first →
      splitn3Space (trimBytes first) = [p0, p1, p2] → validU16 p1 = false →
      parseStatusLine first = (200, stripHttp p0, trimBytes p2)) := by
  refine ⟨?_, ?_, ?_, ?_, ?_⟩
  · intro chunks v hv
    obtain ⟨buf, pos⟩ := v
    exact ⟨parseRespHead buf pos, by simp only [read_http_response_head, hv]⟩
  · intro first h
    rw [parseStatusLine, if_neg h]
  · intro first p0 h1 h2
    rw [parseStatusLine, if_pos h1, h2]
  · intro first p0 p1 h1 h2 h3
    rw [parseStatusLine, if_pos h1, h2]
    simp only [parseU16Or_of_invalid h3]
  · intro first p0 p1 p2 h1 h2 h3
    rw [parseStatusLine, if_pos h1, h2]
    simp only [parseU16Or_of_invalid h3]

/-- Witness for C10 at concrete inputs: a found head parses successfully;
a non-`HTTP/` line gives all defaults; a malformed status token with an
otherwise well-formed line keeps the line's version and reason. -/
theorem status_line_defaults_amended_witness :
    (∃ r, read_http_response_head [strBytes "X\r\n\r\n"] = .ok r) ∧
    parseStatusLine (strBytes "FTP/1.1 200 OK") = (200, strBytes "1.1", []) ∧
    parseStatusLine (strBytes "HTTP/1.0 abc OK")
      = (200, stripHttp (strBytes "HTTP/1.0"), trimBytes (strBytes "OK")) :=
  ⟨status_line_defaults_amended.1 [strBytes "X\r\n\r\n"] (strBytes "X\r\n\r\n", 1) (by rfl),
   status_line_defaults_amended.2.1 (strBytes "FTP/1.1 200 OK") (by decide),
   status_line_defaults_amended.2.2.2.2 (strBytes "HTTP/1.0 abc OK")
     (strBytes "HTTP/1.0") (strBytes "abc") (strBytes "OK")
     (by decide) (by decide) (by decide)⟩

/-- C10 counterexample: on first line `HTTP/1.0 abc OK` (invalid status
token) the call succeeds with status 200, but version is `1.0` and
reason is `OK` — not the claimed defaults `1.1` and empty reason. -/
theorem status_line_defaults_counterexample :
    ∃ r, read_http_response_head [strBytes "HTTP/1.0 abc OK\r\n\r\n"] = .ok r ∧
      r.status = 200 ∧ r.version = strBytes "1.0" ∧ r.reason = strBytes "OK" ∧
      r.version ≠ strBytes "1.1" ∧ r.reason ≠ [] := by
  refine ⟨⟨200, strBytes "1.0", strBytes "OK", [], []⟩,
    by rfl, rfl, rfl, rfl, by decide, by decide⟩

/-! ## http_shared.rs: events and headers -/

/-- Rust `char::to_ascii_uppercase`. -/
def charUpper (c : Char) : Char :=
  if 'a' ≤ c ∧ c ≤ 'z' then Char.ofNat (c.toNat - 32) else c

/-- Rust `char::to_ascii_lowercase`. -/
def charLower (c : Char) : Char :=
  if 'A' ≤ c ∧ c ≤ 'Z' then Char.ofNat (c.toNat + 32) else c

/-- Rust `str::to_ascii_uppercase`. -/
def toAsciiUpper (s : String) : String := ⟨s.data.map charUpper⟩

/-- Rust `str::to_ascii_lowercase`. -/
def toAsciiLower (s : String) : String := ⟨s.data.map charLower⟩

/-- Rust `str::eq_ignore_ascii_case`. -/
def strEqIC (a b : String) : Bool := toAsciiLower a == toAsciiLower b

/-- Rust `str::starts_with`. -/
def strStartsWith (s pre : String) : Bool := pre.data.isPrefixOf s.data

/-- Rust `str::contains` (substring search). -/
def strContains (hay needle : String) : Bool :=
  bytesHasSub (hay.data.map Char.toNat) (needle.data.map Char.toNat)

/-- `Header` (http_shared.rs, and the identical copy in capture.rs). -/
structure Header where
  name : String
  value : String
deriving DecidableEq, Repr

/-- `HttpRequestEvent` (http_shared.rs / capture.rs). The random
16-character `id` token is modelled as an opaque `Nat` drawn from a
fresh-token supply; `body_base64` holds the base64 text as bytes. -/
structure HttpRequestEvent where
  id : Nat
  timestamp : String
  src_ip : String
  src_port : Nat
  dst_ip : String
  dst_port : Nat
  method : String
  path : String
  version : String
  headers : List Header
  body_base64 : Option (List Nat)
  body_len : Nat
  process_name : Option String
  pid : Option Int
  is_llm : Bool
  llm_provider : Option String
deriving DecidableEq, Repr

/-- `HttpResponseEvent` (http_shared.rs / capture.rs). -/
structure HttpResponseEvent where
  id : Nat
  timestamp : String
  src_ip : String
  src_port : Nat
  dst_ip : String
  dst_port : Nat
  status_code : Nat
  reason : Option String
  version : String
  headers : List Header
  body_base64 : Option (List Nat)
  body_len : Nat
  process_name : Option String
  pid : Option Int
  is_llm : Bool
  llm_provider : Option String
deriving DecidableEq, Repr

/-! ## llm_rules.rs: rule data model and compilation

A compiled `regex::Regex` is modelled by its matcher (`is_match`); the
external `Regex::new` compiler is a parameter `rxNew` returning `none`
exactly when the pattern fails to compile. -/

/-- A compiled regex, reduced to its `is_match` behaviour. -/
abbrev Rex := String → Bool

/-- `RawHeaderRule` (llm_rules.rs). -/
structure RawHeaderRule where
  name_regex : Option String
  value_regex : Option String

/-- `RawRuleSide` (llm_rules.rs). -/
structure RawRuleSide where
  methods : Option (List String)
  path_regex : Option String
  headers : Option (List RawHeaderRule)
  body_contains_any : Option (List String)

/-- `RawLlmRule` (llm_rules.rs); the `provider_by_port` HashMap is an
association list with distinct keys. -/
structure RawLlmRule where
  provider : String
  provider_by_port : Option (List (Nat × String))
  request : Option RawRuleSide
  response : Option RawRuleSide

/-- `RawLlmRules` (llm_rules.rs). -/
structure RawLlmRules where
  rules : List RawLlmRule

/-- `HeaderRuleCompiled` (llm_rules.rs). -/
structure HeaderRuleCompiled where
  name : Option Rex
  value : Option Rex

/-- `RuleSideCompiled` (llm_rules.rs). -/
structure RuleSideCompiled where
  methods : Option (List String)
  path : Option Rex
  headers : List HeaderRuleCompiled
  body_contains_any : List String

/-- `LlmRuleCompiled` (llm_rules.rs). -/
structure LlmRuleCompiled where
  provider : String
  provider_by_port : List (Nat × String)
  request : Option RuleSideCompiled
  response : Option RuleSideCompiled

/-- `LlmRules` (llm_rules.rs). -/
structure LlmRules where
  rules : List LlmRuleCompiled

/-- The `Some(s) if !s.is_empty() => Regex::new(s).ok()` pattern used
for every regex field in llm_rules.rs: empty or absent patterns and
patterns that fail to compile all become `none`. -/
def compileOptRegex (rxNew : String → Option Rex) : Option String → Option Rex
  | some s =>
    if s = "" then none
    else
      match rxNew s with
      | some rx => some rx
      | none => none
  | none => none

/-- `compile_header_rule` (llm_rules.rs): always `some`. -/
def compile_header_rule (rxNew : String → Option Rex) (r : RawHeaderRule) :
    Option HeaderRuleCompiled :=
  some { name := compileOptRegex rxNew r.name_regex
         value := compileOptRegex rxNew r.value_regex }

/-- `compile_side` (llm_rules.rs): always `some`; methods uppercased,
header rules collected through `compile_header_rule`. -/
def compile_side (rxNew : String → Option Rex) (r : RawRuleSide) : Option RuleSideCompiled :=
  some { methods := r.methods.map (fun v => v.map toAsciiUpper)
         path := compileOptRegex rxNew r.path_regex
         headers := (r.headers.getD []).filterMap (compile_header_rule rxNew)
         body_contains_any := r.body_contains_any.getD [] }

/-- `compile_rules` (llm_rules.rs): one compiled rule per raw rule. -/
def compile_rules (rxNew : String → Option Rex) (raw : RawLlmRules) : LlmRules :=
  { rules := raw.rules.map (fun rr =>
      { provider := rr.provider
        provider_by_port := rr.provider_by_port.getD []
        request := rr.request.bind (compile_side rxNew)
        response := rr.response.bind (compile_side rxNew) }) }

/-- `headers_match` (llm_rules.rs): every header rule must be satisfied
by some header; no header rules means satisfied. -/
def headers_match (compiled : RuleSideCompiled) (headers : List Header) : Bool :=
  if compiled.headers.isEmpty then true
  else
    compiled.headers.all (fun hr =>
      headers.any (fun h =>
        (match hr.name with | some rx => rx h.name | none => true) &&
        (match hr.value with | some rx => rx h.value | none => true)))

/-- `body_contains_any` (llm_rules.rs): decode the base64 body (empty
string when absent or undecodable) and look for any needle. -/
def body_contains_any (compiled : RuleSideCompiled) (body_b64 : Option (List Nat)) : Bool :=
  if compiled.body_contains_any.isEmpty then true
  else
    let body :=
      match body_b64 with
      | some b64 =>
        match b64decode b64 with
        | some bytes => bytesLossy bytes
        | none => ""
      | none => ""
    compiled.body_contains_any.any (fun needle => strContains body needle)

/-- `HashMap::get` on the modelled `provider_by_port` map. -/
def lookupPort : List (Nat × String) → Nat → Option String
  | [], _ => none
  | (k, v) :: rest, p => if k = p then some v else lookupPort rest p

/-- The rule loop of `LlmRules::match_request` (llm_rules.rs). -/
def matchRequestRules (evt : HttpRequestEvent) : List LlmRuleCompiled → Option String
  | [] => none
  | r :: rest =>
    match r.request with
    | some side =>
      if (match side.methods with
          | some ms => ms.any (fun m => m == toAsciiUpper evt.method)
          | none => true)
          && (match side.path with | some rx => rx evt.path | none => true)
          && headers_match side evt.headers
          && body_contains_any side evt.body_base64 then
        match lookupPort r.provider_by_port evt.dst_port with
        | some p => some p
        | none => some r.provider
      else matchRequestRules evt rest
    | none => matchRequestRules evt rest

/-- `LlmRules::match_request` (llm_rules.rs): first matching rule wins;
port override against the destination port. -/
def LlmRules.match_request (rules : LlmRules) (evt : HttpRequestEvent) : Option String :=
  matchRequestRules evt rules.rules

/-- The rule loop of `LlmRules::match_response` (llm_rules.rs). -/
def matchResponseRules (evt : HttpResponseEvent) : List LlmRuleCompiled → Option String
  | [] => none
  | r :: rest =>
    match r.response with
    | some side =>
      if headers_match side evt.headers && body_contains_any side evt.body_base64 then
        match lookupPort r.provider_by_port evt.src_port with
        | some p => some p
        | none => some r.provider
      else matchResponseRules evt rest
    | none => matchResponseRules evt rest

/-- `LlmRules::match_response` (llm_rules.rs): port override against the
source port. -/
def LlmRules.match_response (rules : LlmRules) (evt : HttpResponseEvent) : Option String :=
  matchResponseRules evt rules.rules

/-- The rule loop of `LlmRules::match_text_only` (llm_rules.rs). -/
def matchTextRules (text : String) : List LlmRuleCompiled → Option String
  | [] => none
  | r :: rest =>
    match r.response with
    | some side =>
      if side.body_contains_any.any (fun needle => strContains text needle) then
        some r.provider
      else matchTextRules text rest
    | none => matchTextRules text rest

/-- `LlmRules::match_text_only` (llm_rules.rs). -/
def LlmRules.match_text_only (rules : LlmRules) (text : String) : Option String :=
  matchTextRules text rules.rules

/-- The two regexes appearing in `DEFAULT_LLM_RULES_JSON`, compiled:
`is_match` with a leading `^` anchor is a starts-with test on one of
the alternatives. Any other pattern is irrelevant to the default set. -/
def defaultRegexCompile : String → Option Rex := fun s =>
  if s = "^/v1/(chat/completions|completions)" then
    some (fun p => strStartsWith p "/v1/chat/completions" || strStartsWith p "/v1/completions")
  else if s = "^/api/(generate|chat)" then
    some (fun p => strStartsWith p "/api/generate" || strStartsWith p "/api/chat")
  else none

/-- `DEFAULT_LLM_RULES_JSON` (llm_rules.rs), transcribed from the
embedded JSON document. -/
def rawDefaultRules : RawLlmRules :=
  { rules :=
    [ { provider := "openai_compatible"
        provider_by_port := some [(1234, "lmstudio"), (11434, "ollama")]
        request := some
          { methods := some ["POST"]
            path_regex := some "^/v1/(chat/completions|completions)"
            headers := none
            body_contains_any := some ["\"model\"", "\"messages\"", "\"prompt\""] }
        response := some
          { methods := none, path_regex := none, headers := none
            body_contains_any := some ["\"choices\""] } }
    , { provider := "ollama"
        provider_by_port := none
        request := some
          { methods := some ["POST"]
            path_regex := some "^/api/(generate|chat)"
            headers := none
            body_contains_any := none }
        response := some
          { methods := none, path_regex := none, headers := none
            body_contains_any := some ["\"response\"", "\"message\"", "\"model\"", "\"choices\""] } } ] }

/-- The compiled embedded default rule set. -/
def defaultLlmRules : LlmRules := compile_rules defaultRegexCompile rawDefaultRules

/-- The request of scenario 3: `POST /v1/chat/completions` with body
`{"model":"x","messages":[]}`, destined to the given port. -/
def c5Event (port : Nat) : HttpRequestEvent :=
  { id := 0, timestamp := "", src_ip := "", src_port := 0, dst_ip := "", dst_port := port
    method := "POST", path := "/v1/chat/completions", version := "1.1", headers := []
    body_base64 := some (b64encode (strBytes "\x7b\"model\":\"x\",\"messages\":[]\x7d"))
    body_len := (strBytes "\x7b\"model\":\"x\",\"messages\":[]\x7d").length
    process_name := none, pid := none, is_llm := false, llm_provider := none }

/-- C5: under the embedded default rules, the scenario-3 request matches
the first rule, and the provider comes from the rule's port override on
the destination port: 1234 ↦ lmstudio, 11434 ↦ ollama, anything else ↦
the base provider openai_compatible. -/
theorem default_rules_port_override :
    LlmRules.match_request defaultLlmRules (c5Event 1234) = some "lmstudio" ∧
    LlmRules.match_request defaultLlmRules (c5Event 11434) = some "ollama" ∧
    ∀ port : Nat, port ≠ 1234 → port ≠ 11434 →
      LlmRules.match_request defaultLlmRules (c5Event port) = some "openai_compatible" := by
  refine ⟨by rfl, by rfl, ?_⟩
  intro port h1 h2
  have hred : LlmRules.match_request defaultLlmRules (c5Event port)
      = match lookupPort [(1234, "lmstudio"), (11434, "ollama")] port with
        | some p => some p
        | none => some "openai_compatible" := by rfl
  rw [hred, lookupPort, if_neg (Ne.symm h1), lookupPort, if_neg (Ne.symm h2), lookupPort]

/-- Witness for C5 at a concrete non-override port. -/
theorem default_rules_port_override_witness :
    LlmRules.match_request defaultLlmRules (c5Event 8080) = some "openai_compatible" :=
  default_rules_port_override.2.2 8080 (by decide) (by decide)

theorem compileOptRegex_none {rxNew : String → Option Rex} {s : String} (h : rxNew s = none) :
    compileOptRegex rxNew (some s) = none := by
  rw [compileOptRegex]
  by_cases hs : s = ""
  · rw [if_pos hs]
  · rw [if_neg hs, h]

theorem compileOptRegex_noneField (rxNew : String → Option Rex) :
    compileOptRegex rxNew none = none := rfl

theorem bind_compile_side_isSome (rxNew : String → Option Rex) (o : Option RawRuleSide) :
    (o.bind (compile_side rxNew)).isSome = o.isSome := by
  cases o <;> simp [compile_side]

/-- C6: rule compilation is total — one compiled rule per declared rule,
each side compiled exactly when declared — and a regex that fails to
compile is dropped silently from its predicate: the compiled side (or
header rule) is identical to the one obtained with the field absent, so
the rule and the rule set survive. -/
theorem rule_compilation_total :
    (∀ (rxNew : String → Option Rex) (raw : RawLlmRules),
      (compile_rules rxNew raw).rules.length = raw.rules.length) ∧
    (∀ (rxNew : String → Option Rex) (raw : RawLlmRules),
      (compile_rules rxNew raw).rules.map (fun r => (r.request.isSome, r.response.isSome))
        = raw.rules.map (fun r => (r.request.isSome, r.response.isSome))) ∧
    (∀ (rxNew : String → Option Rex) (s : String) (r : RawRuleSide), rxNew s = none →
      compile_side rxNew { r with path_regex := some s }
        = compile_side rxNew { r with path_regex := none }) ∧
    (∀ (rxNew : String → Option Rex) (s : String) (hr : RawHeaderRule), rxNew s = none →
      compile_header_rule rxNew { hr with name_regex := some s }
        = compile_header_rule rxNew { hr with name_regex := none }) ∧
    (∀ (rxNew : String → Option Rex) (s : String) (hr : RawHeaderRule), rxNew s = none →
      compile_header_rule rxNew { hr with value_regex := some s }
        = compile_header_rule rxNew { hr with value_regex := none }) := by
  refine ⟨?_, ?_, ?_, ?_, ?_⟩
  · intro rxNew raw
    simp [compile_rules]
  · intro rxNew raw
    simp only [compile_rules, List.map_map]
    apply List.map_congr_left
    intro rr _
    simp only [Function.comp_apply, bind_compile_side_isSome]
  · intro rxNew s r h
    simp only [compile_side, compileOptRegex_none h, compileOptRegex_noneField]
  · intro rxNew s hr h
    simp only [compile_header_rule, compileOptRegex_none h, compileOptRegex_noneField]
  · intro rxNew s hr h
    simp only [compile_header_rule, compileOptRegex_none h, compileOptRegex_noneField]

/-- Witness for C6: with a compiler that rejects every pattern, the two
default rules still compile one-for-one, and a side whose `path_regex`
is the invalid pattern `(` compiles identically to one without it. -/
theorem rule_compilation_total_witness :
    (compile_rules (fun _ => none) rawDefaultRules).rules.length
        = rawDefaultRules.rules.length ∧
    compile_side (fun _ => none)
        { methods := some ["POST"], path_regex := some "(", headers := none
          body_contains_any := none }
      = compile_side (fun _ => none)
        { methods := some ["POST"], path_regex := none, headers := none
          body_contains_any := none } :=
  ⟨rule_compilation_total.1 (fun _ => none) rawDefaultRules,
   rule_compilation_total.2.2.1 (fun _ => none) "("
     { methods := some ["POST"], path_regex := some "(", headers := none
       body_contains_any := none } rfl⟩

/-! ## proxy/mitm_service.rs and proxy/mitm_handlers.rs: outbound requests -/

/-- Header names skipped by `build_outgoing_request` (mitm_service.rs,
direct HTTPS transport): hop-by-hop plus length-affecting plus host. -/
def directStripNames : List String :=
  ["connection", "proxy-connection", "proxy-authorization", "keep-alive",
   "upgrade", "te", "trailers", "host", "content-length", "transfer-encoding"]

/-- Header names skipped by `handle_via_upstream_proxy`
(mitm_handlers.rs) when serialising the request for the
CONNECT-through-parent transport. -/
def upstreamStripNames : List String :=
  ["proxy-connection", "proxy-authorization", "connection", "te"]

/-- Host injection in `parse_client_request` (mitm_service.rs): when no
`host` header is present (ASCII-case-insensitive), append one carrying
the CONNECT host. -/
def clientHeadersWithHost (connectHost : String) (hs : List Header) : List Header :=
  if hs.any (fun h => strEqIC h.name "host") then hs
  else hs ++ [{ name := "host", value := connectHost }]

/-- `host_header` in `parse_client_request` (mitm_service.rs): value of
the first `host` header, else the CONNECT host. -/
def hostHeaderValue (connectHost : String) (hs : List Header) : String :=
  match hs.find? (fun h => strEqIC h.name "host") with
  | some h => h.value
  | none => connectHost

/-- The URI built by `parse_client_request` (mitm_service.rs):
`https://<host header><path>`. -/
def parsedRequestUri (hostHeader path : String) : String :=
  "https://" ++ hostHeader ++ path

/-- The header loop of `build_outgoing_request` (mitm_service.rs): skip
the strip-set, keep a header only when its name and value parse as
`HeaderName`/`HeaderValue` (the http crate's validity checks, passed in
as predicates). -/
def build_outgoing_request_headers (validName validValue : String → Bool) :
    List Header → List Header
  | [] => []
  | h :: rest =>
    if directStripNames.contains (toAsciiLower h.name) then
      build_outgoing_request_headers validName validValue rest
    else if validName h.name && validValue h.value then
      h :: build_outgoing_request_headers validName validValue rest
    else build_outgoing_request_headers validName validValue rest

/-- The header loop of `handle_via_upstream_proxy` (mitm_handlers.rs):
only `proxy-connection`, `proxy-authorization`, `connection` and `te`
are skipped; everything else is written verbatim. -/
def upstreamKeptHeaders : List Header → List Header
  | [] => []
  | h :: rest =>
    if upstreamStripNames.contains (toAsciiLower h.name) then upstreamKeptHeaders rest
    else h :: upstreamKeptHeaders rest

/-- The headers written toward the origin by `handle_via_upstream_proxy`
(mitm_handlers.rs): the kept headers, plus an injected
`Host: <host_header>` when the client sent none. -/
def upstreamForwardHeaders (hostHeader : String) (hs : List Header) : List Header :=
  if hs.any (fun h => toAsciiLower h.name == "host") then upstreamKeptHeaders hs
  else upstreamKeptHeaders hs ++ [{ name := "Host", value := hostHeader }]

/-- The request line written by `handle_via_upstream_proxy`
(mitm_handlers.rs): origin form, not an absolute `https://` URI. -/
def upstreamRequestLine (method path : String) : String :=
  method ++ " " ++ path ++ " HTTP/1.1"

/-- The outbound header set as the spec's words prescribe it for both
transports (claim C3): client headers minus the hop-by-hop and
length-affecting names. Stated from the spec for comparison. -/
def specOutboundHeaders (hs : List Header) : List Header :=
  hs.filter (fun h => !(directStripNames.contains (toAsciiLower h.name)))

/-- The concrete client header list refuting C3 on the upstream-proxy
transport. -/
def c3Headers : List Header :=
  [{ name := "Host", value := "example.com" },
   { name := "Keep-Alive", value := "timeout=5" },
   { name := "Content-Length", value := "3" },
   { name := "Accept", value := "*/*" }]

/-- C3 counterexample: on the CONNECT-through-parent transport the code
keeps `Keep-Alive`, `Content-Length` and `Host`, so the outbound
request does not equal the client headers minus the claimed strip set,
and its first line is origin-form rather than an `https://` URI. -/
theorem outbound_headers_counterexample :
    upstreamForwardHeaders "example.com" c3Headers ≠ specOutboundHeaders c3Headers ∧
    { name := "Keep-Alive", value := "timeout=5" }
      ∈ upstreamForwardHeaders "example.com" c3Headers ∧
    { name := "Content-Length", value := "3" }
      ∈ upstreamForwardHeaders "example.com" c3Headers ∧
    upstreamRequestLine "POST" "/v1/chat/completions"
      ≠ parsedRequestUri "example.com" "/v1/chat/completions" := by decide

/-- C3 (amended): only the direct HTTPS transport strips the full
hop-by-hop plus length-affecting set (among headers passing the http
crate's name/value validity checks), and its URI is
`https://<Host header><path>`; the upstream-proxy transport strips only
`Proxy-Connection`, `Proxy-Authorization`, `Connection` and `TE`, keeps
`Host`, `Content-Length`, `Transfer-Encoding`, `Keep-Alive`, `Upgrade`
and `Trailers`, injects `Host: <host_header>` only when the client sent
none, and writes the request in origin form. -/
theorem outbound_headers_amended :
    (∀ (validName validValue : String → Bool) (hs : List Header),
      build_outgoing_request_headers validName validValue hs
        = hs.filter (fun h => !(directStripNames.contains (toAsciiLower h.name))
            && (validName h.name && validValue h.value))) ∧
    (∀ connectHost path : String, ∀ hs : List Header,
      parsedRequestUri (hostHeaderValue connectHost (clientHeadersWithHost connectHost hs)) path
        = "https://" ++ hostHeaderValue connectHost (clientHeadersWithHost connectHost hs) ++ path) ∧
    (∀ (hostHeader : String) (hs : List Header),
      upstreamForwardHeaders hostHeader hs
        = hs.filter (fun h => !(upstreamStripNames.contains (toAsciiLower h.name)))
          ++ (if hs.any (fun h => toAsciiLower h.name == "host") then []
              else [{ name := "Host", value := hostHeader }])) := by
  refine ⟨?_, ?_, ?_⟩
  · intro validName validValue hs
    induction hs with
    | nil => rfl
    | cons h rest ih =>
      rw [build_outgoing_request_headers, List.filter_cons]
      by_cases hmem : toAsciiLower h.name ∈ directStripNames
      · rw [if_pos (by simpa using hmem), ih]
        simp [hmem]
      · rw [if_neg (by simpa using hmem)]
        by_cases hvn : validName h.name = true
        · by_cases hvv : validValue h.value = true
          · rw [if_pos (by simp [hvn, hvv]), ih]
            simp [hmem, hvn, hvv]
          · rw [if_neg (by simp [hvv]), ih]
            simp [hmem, hvv]
        · rw [if_neg (by simp [hvn]), ih]
          simp [hmem, hvn]
  · intro connectHost path hs
    rfl
  · intro hostHeader hs
    have hk : ∀ hs' : List Header, upstreamKeptHeaders hs'
        = hs'.filter (fun h => !(upstreamStripNames.contains (toAsciiLower h.name))) := by
      intro hs'
      induction hs' with
      | nil => rfl
      | cons h rest ih =>
        rw [upstreamKeptHeaders, List.filter_cons]
        by_cases hmem : toAsciiLower h.name ∈ upstreamStripNames
        · rw [if_pos (by simpa using hmem), ih]
          simp [hmem]
        · rw [if_neg (by simpa using hmem), ih]
          simp [hmem]
    rw [upstreamForwardHeaders, hk]
    by_cases hh : hs.any (fun h => toAsciiLower h.name == "host") = true
    · rw [if_pos hh, if_pos hh, List.append_nil]
    · rw [if_neg hh, if_neg hh]

/-! ## capture.rs: HTTP/1 reassembly, pairing and streaming

The httparse crate (external) is modelled as a strict HTTP/1.x head
parser over `\r\n`-separated lines; `gen_id()` is modelled as a
fresh-token supply (a counter), per the spec's "16-char opaque token,
unique within process lifetime"; `now_rfc3339` and `try_lookup_process`
(whose non-macOS build returns `(None, None)`) contribute constant
fields. `str::from_utf8(..).ok()` is modelled as succeeding exactly on
ASCII bytes. -/

/-- Whether `str::from_utf8` succeeds, restricted to ASCII input. -/
def isValidUtf8Ascii (l : List Nat) : Bool := l.all (fun b => b < 128)

/-- Request-line parse (httparse, external): `METHOD SP PATH SP HTTP/1.x`.
Returns `(method, path, minor version)`. -/
def parseRequestLine (line : List Nat) : Option (List Nat × List Nat × Nat) :=
  match splitOnceByte 32 line with
  | none => none
  | some (m, rest) =>
    match splitOnceByte 32 rest with
    | none => none
    | some (p, v) =>
      if m ≠ [] ∧ p ≠ [] ∧ (v = strBytes "HTTP/1.1" ∨ v = strBytes "HTTP/1.0") then
        some (m, p, if v = strBytes "HTTP/1.0" then 0 else 1)
      else none

/-- Status-line parse (httparse, external): `HTTP/1.x SP NNN [SP reason]`.
Returns `(minor version, status code)`. -/
def parseStatusLineStrict (line : List Nat) : Option (Nat × Nat) :=
  match splitOnceByte 32 line with
  | none => none
  | some (v, rest) =>
    if v = strBytes "HTTP/1.1" ∨ v = strBytes "HTTP/1.0" then
      let codeBytes :=
        match splitOnceByte 32 rest with
        | none => rest
        | some (c, _) => c
      if codeBytes.length = 3 then
        match parseDecDigits codeBytes with
        | some code => some (if v = strBytes "HTTP/1.0" then 0 else 1, code)
        | none => none
      else none
    else none

/-- Header-line parse (httparse, external): every line must be
`name: value`; value surrounding whitespace is dropped. -/
def parseHeadersStrict : List (List Nat) → Option (List (List Nat × List Nat))
  | [] => some []
  | line :: rest =>
    match splitOnceByte 58 line with
    | some (n, v) =>
      if n = [] then none
      else (parseHeadersStrict rest).map (fun hs => (n, trimBytes v) :: hs)
    | none => none

/-- The `content_length` accumulation loop of `parse_http_request` /
`parse_http_response` (capture.rs): the last header named
`content-length` (ASCII-case-insensitive) whose trimmed value parses
wins; others leave the accumulator alone. -/
def contentLengthOf (hdrs : List (List Nat × List Nat)) : Nat :=
  hdrs.foldl (fun acc h =>
    if bytesEqIC h.1 (strBytes "content-length") then
      match parseRustNat (trimBytes h.2) with
      | some v => v
      | none => acc
    else acc) 0

/-- `parse_http_request` (capture.rs): parse the head, require
`header-end + Content-Length ≤ buffer length` when a body is declared,
base64 the body, apply the naive LLM hints. `freshId` stands for the
`gen_id()` call. Returns `(consumed, event)`. -/
def parse_http_request (freshId : Nat) (buf : List Nat) : Option (Nat × HttpRequestEvent) :=
  match findSeq4 buf with
  | none => none
  | some pos =>
    let headerLen := pos + 4
    match splitOnCrlf (buf.take pos) with
    | [] => none
    | line0 :: headerLines =>
      match parseRequestLine line0 with
      | none => none
      | some (m, p, vmin) =>
        match parseHeadersStrict headerLines with
        | none => none
        | some hdrs =>
          let contentLength := contentLengthOf hdrs
          if contentLength > 0 ∧ buf.length < headerLen + contentLength then none
          else
            let bodyEnd := min (headerLen + contentLength) buf.length
            let body := (buf.take bodyEnd).drop headerLen
            let pathStr := bytesLossy p
            let llmBody := isValidUtf8Ascii body
              && (trimStartBytes body).take 1 == [123]
              && bytesHasSub body (strBytes "\"model\"")
            let pathHit := bytesHasSub p (strBytes "/v1/chat/completions")
              || bytesHasSub p (strBytes "/v1/completions")
            some (headerLen + contentLength,
              { id := freshId, timestamp := "", src_ip := "", src_port := 0
                dst_ip := "", dst_port := 0
                method := bytesLossy m, path := pathStr
                version := "1." ++ toString vmin
                headers := hdrs.map (fun h => { name := bytesLossy h.1, value := bytesLossy h.2 })
                body_base64 := if body.isEmpty then none else some (b64encode body)
                body_len := body.length
                process_name := none, pid := none
                is_llm := llmBody || pathHit
                llm_provider := if pathHit then some "openai_compatible" else none })

/-- `parse_http_response` (capture.rs): like the request parse; the
event's `id` is a placeholder overwritten by pairing, `reason` is left
`None` by the code. Returns `(consumed, event)`. -/
def parse_http_response (buf : List Nat) : Option (Nat × HttpResponseEvent) :=
  match findSeq4 buf with
  | none => none
  | some pos =>
    let headerLen := pos + 4
    match splitOnCrlf (buf.take pos) with
    | [] => none
    | line0 :: headerLines =>
      match parseStatusLineStrict line0 with
      | none => none
      | some (vmin, code) =>
        match parseHeadersStrict headerLines with
        | none => none
        | some hdrs =>
          let contentLength := contentLengthOf hdrs
          if contentLength > 0 ∧ buf.length < headerLen + contentLength then none
          else
            let bodyEnd := min (headerLen + contentLength) buf.length
            let body := (buf.take bodyEnd).drop headerLen
            some (headerLen + contentLength,
              { id := 0, timestamp := "", src_ip := "", src_port := 0
                dst_ip := "", dst_port := 0
                status_code := code, reason := none
                version := "1." ++ toString vmin
                headers := hdrs.map (fun h => { name := bytesLossy h.1, value := bytesLossy h.2 })
                body_base64 := if body.isEmpty then none else some (b64encode body)
                body_len := body.length
                process_name := none, pid := none
                is_llm := false, llm_provider := none })

/-- `enrich_req_with_endpoints` (capture.rs). -/
def enrich_req_with_endpoints (evt : HttpRequestEvent) (srcIp : String) (srcPort : Nat)
    (dstIp : String) (dstPort : Nat) : HttpRequestEvent :=
  { evt with src_ip := srcIp, src_port := srcPort, dst_ip := dstIp, dst_port := dstPort }

/-- `enrich_resp_with_endpoints` (capture.rs). -/
def enrich_resp_with_endpoints (evt : HttpResponseEvent) (srcIp : String) (srcPort : Nat)
    (dstIp : String) (dstPort : Nat) : HttpResponseEvent :=
  { evt with src_ip := srcIp, src_port := srcPort, dst_ip := dstIp, dst_port := dstPort }

/-- The direction sniffer over the payload's first line (capture.rs);
the source spells the name with a prefix suffix. -/
def guess_is_request_from_head (payload : List Nat) : Option Bool :=
  let maxN := min payload.length 64
  let lineEnd := (findByte 10 (payload.take maxN)).getD maxN
  let headBytes := payload.take lineEnd
  if isValidUtf8Ascii headBytes then
    let head := trimStartBytes (headBytes.dropWhile (fun b => b == 13 || b == 10))
    if (strBytes "HTTP/").isPrefixOf head then some false
    else if ["GET ", "POST ", "PUT ", "DELETE ", "HEAD ", "OPTIONS ", "PATCH ", "CONNECT ",
        "TRACE "].any (fun m => (strBytes m).isPrefixOf head) then some true
    else none
  else none

theorem parse_http_request_consumed {fid : Nat} {buf : List Nat} {c : Nat}
    {e : HttpRequestEvent} (h : parse_http_request fid buf = some (c, e)) :
    4 ≤ c ∧ c ≤ buf.length := by
  rw [parse_http_request] at h
  match hf : findSeq4 buf with
  | none => rw [hf] at h; cases h
  | some pos =>
    rw [hf] at h
    have hpos := findSeq4_some_le hf
    simp only [] at h
    split at h
    · cases h
    · split at h
      · cases h
      · split at h
        · cases h
        · split at h
          · cases h
          · rename_i hdrs heq hcond
            have hc : c = pos + 4 + contentLengthOf hdrs := by
              cases h
              rfl
            push_neg at hcond
            rcases Nat.eq_zero_or_pos (contentLengthOf hdrs) with hz | hp
            · rw [hz] at hc
              omega
            · have := hcond hp
              omega

theorem parse_http_response_consumed {buf : List Nat} {c : Nat}
    {e : HttpResponseEvent} (h : parse_http_response buf = some (c, e)) :
    4 ≤ c ∧ c ≤ buf.length := by
  rw [parse_http_response] at h
  match hf : findSeq4 buf with
  | none => rw [hf] at h; cases h
  | some pos =>
    rw [hf] at h
    have hpos := findSeq4_some_le hf
    simp only [] at h
    split at h
    · cases h
    · split at h
      · cases h
      · split at h
        · cases h
        · split at h
          · cases h
          · rename_i hdrs heq hcond
            have hc : c = pos + 4 + contentLengthOf hdrs := by
              cases h
              rfl
            push_neg at hcond
            rcases Nat.eq_zero_or_pos (contentLengthOf hdrs) with hz | hp
            · rw [hz] at hc
              omega
            · have := hcond hp
              omega

/-- `ConnectionBuffers` (capture.rs); the two VecDeques are lists with
the queue front at the head. -/
structure ConnectionBuffers where
  req_buf : List Nat
  resp_buf : List Nat
  pending_request_ids : List Nat
  client_endpoint : Option (String × Nat)
  server_endpoint : Option (String × Nat)
  streaming_active : Bool
  streaming_resp_id : Option Nat
  streaming_content_type : Option String
  streaming_llm_provider : Option String
  streaming_headers : Option (List Header)
  pending_llm_provider : List (Option String)
deriving DecidableEq, Repr

/-- `ConnectionBuffers::default()`. -/
def initConn : ConnectionBuffers :=
  { req_buf := [], resp_buf := [], pending_request_ids := []
    client_endpoint := none, server_endpoint := none
    streaming_active := false, streaming_resp_id := none
    streaming_content_type := none, streaming_llm_provider := none
    streaming_headers := none, pending_llm_provider := [] }

/-- One captured TCP segment, as produced by
`classify_tcp_endpoints_and_payload` (capture.rs). -/
structure Packet where
  src_ip : String
  src_port : Nat
  dst_ip : String
  dst_port : Nat
  payload : List Nat
deriving DecidableEq, Repr

/-- An emitted event (`onHttpRequest` / `onHttpResponse`). -/
inductive CapEvent
  | request (e : HttpRequestEvent)
  | response (e : HttpResponseEvent)
deriving DecidableEq, Repr

/-- `Option::get_or_insert`. -/
def orInsert {α : Type} (o : Option α) (v : α) : Option α :=
  match o with
  | some x => some x
  | none => some v

/-- The header scan of the response loop (capture.rs lines 749-764):
accumulates `(is_streaming, resp_ct_header, streaming_content_type)`. -/
def streamHeaderScan : List Header → Bool × Option String × Option String →
    Bool × Option String × Option String
  | [], acc => acc
  | h :: rest, (isS, ct, sct) =>
    let name := toAsciiLower h.name
    let val := toAsciiLower h.value
    let isS1 := if name == "transfer-encoding" && strContains val "chunked" then true else isS
    let next :=
      if name == "content-type" then
        if strContains val "text/event-stream" then (true, some h.value, some h.value)
        else (isS1, some h.value, sct)
      else (isS1, ct, sct)
    streamHeaderScan rest next

/-- Streaming detection for one parsed response (capture.rs): the header
scan plus the non-SSE chunked content-type fallback. Returns
`(is_streaming, new streaming_content_type)`. -/
def streamDetect (headers : List Header) (sct0 : Option String) : Bool × Option String :=
  let r := streamHeaderScan headers (false, none, sct0)
  if r.1 && r.2.2.isNone then
    match r.2.1 with
    | some c => (r.1, some c)
    | none => (r.1, r.2.2)
  else (r.1, r.2.2)

/-- Draining `drain(0..consumed)` with the length guard (capture.rs):
equals dropping `consumed` bytes, clearing when out of range. -/
def dropConsumed (buf : List Nat) (consumed : Nat) : List Nat :=
  if consumed ≤ buf.length then buf.drop consumed else []

/-- The per-request event preparation of the request loop (capture.rs
lines 707-713): enrich with endpoints, apply the request rules. -/
def reqLoopEvent (rules : LlmRules) (srcIp : String) (srcPort : Nat) (dstIp : String)
    (dstPort : Nat) (evt0 : HttpRequestEvent) : HttpRequestEvent :=
  let evt1 := enrich_req_with_endpoints evt0 srcIp srcPort dstIp dstPort
  match LlmRules.match_request rules evt1 with
  | some provider => { evt1 with is_llm := true, llm_provider := some provider }
  | none => evt1

/-- The state update of one request-loop iteration (capture.rs lines
714-719): enqueue id and provider hint, drain the parsed bytes. -/
def reqLoopNextState (st : ConnectionBuffers) (consumed : Nat) (evt2 : HttpRequestEvent) :
    ConnectionBuffers :=
  { st with
    pending_request_ids := st.pending_request_ids ++ [evt2.id],
    pending_llm_provider := st.pending_llm_provider ++ [evt2.llm_provider],
    req_buf := dropConsumed st.req_buf consumed }

/-- The request side of the per-packet loop (capture.rs lines 706-721):
repeatedly parse complete requests out of `req_buf`, enqueue id and
provider hint, emit. The id counter models `gen_id()`. -/
def processRequestLoop (rules : LlmRules) (srcIp : String) (srcPort : Nat)
    (dstIp : String) (dstPort : Nat) (st : ConnectionBuffers) (cnt : Nat) :
    ConnectionBuffers × Nat × List CapEvent :=
  match hp : parse_http_request cnt st.req_buf with
  | none => (st, cnt, [])
  | some (consumed, evt0) =>
    let evt2 := reqLoopEvent rules srcIp srcPort dstIp dstPort evt0
    let r := processRequestLoop rules srcIp srcPort dstIp dstPort
      (reqLoopNextState st consumed evt2) (cnt + 1)
    (r.1, r.2.1, CapEvent.request evt2 :: r.2.2)
termination_by st.req_buf.length
decreasing_by
  have hb := parse_http_request_consumed hp
  simp only [reqLoopNextState, dropConsumed]
  split
  · simp only [List.length_drop]
    omega
  · simp only [List.length_nil]
    omega

/-- Pairing of one parsed response (capture.rs lines 727-741): take the
oldest pending id, enrich, inherit the request-side provider hint. -/
def respPairedEvent (srcIp : String) (srcPort : Nat) (dstIp : String) (dstPort : Nat)
    (pendingProv : List (Option String)) (evt0 : HttpResponseEvent) (pid0 : Nat) :
    HttpResponseEvent :=
  let evt1 := enrich_resp_with_endpoints { evt0 with id := pid0 } srcIp srcPort dstIp dstPort
  match pendingProv with
  | p :: _ => { evt1 with is_llm := p.isSome, llm_provider := p }
  | [] => evt1

/-- Response-side classification fallback (capture.rs lines 742-747). -/
def respClassify (rules : LlmRules) (evt2 : HttpResponseEvent) : HttpResponseEvent :=
  if evt2.is_llm then evt2
  else
    match LlmRules.match_response rules evt2 with
    | some provider => { evt2 with is_llm := true, llm_provider := some provider }
    | none => evt2

/-- The fully prepared response event of one response-loop iteration. -/
def respLoopEvent (rules : LlmRules) (srcIp : String) (srcPort : Nat) (dstIp : String)
    (dstPort : Nat) (st : ConnectionBuffers) (evt0 : HttpResponseEvent) (pid0 : Nat) :
    HttpResponseEvent :=
  respClassify rules (respPairedEvent srcIp srcPort dstIp dstPort st.pending_llm_provider evt0 pid0)

/-- `VecDeque::pop_front` on the provider-hint queue: the rest of the
queue (unchanged when empty, matching the source's `None => {}`). -/
def popProvQueue (q : List (Option String)) : List (Option String) :=
  match q with
  | _ :: ps => ps
  | [] => []

/-- The state update of one pairing iteration (capture.rs lines
748-775): drain the parsed bytes, drop the paired id and hint, update
the streaming state from the response headers. -/
def respLoopNextState (st : ConnectionBuffers) (consumed : Nat) (restIds : List Nat)
    (evt3 : HttpResponseEvent) : ConnectionBuffers :=
  let buf1 := dropConsumed st.resp_buf consumed
  let det := streamDetect evt3.headers st.streaming_content_type
  if det.1 then
    { st with
      resp_buf := buf1,
      pending_request_ids := restIds,
      pending_llm_provider := popProvQueue st.pending_llm_provider,
      streaming_content_type := det.2,
      streaming_active := true,
      streaming_resp_id := some evt3.id,
      streaming_llm_provider :=
        if evt3.is_llm then evt3.llm_provider else st.streaming_llm_provider,
      streaming_headers := some evt3.headers }
  else
    { st with
      resp_buf := buf1,
      pending_request_ids := restIds,
      pending_llm_provider := popProvQueue st.pending_llm_provider,
      streaming_content_type := det.2 }

/-- The while-loop of the response side (capture.rs lines 726-777):
parse complete responses, pair with the oldest pending id (drop the
message when none is pending), classify, update streaming state, emit. -/
def processResponseLoop (rules : LlmRules) (srcIp : String) (srcPort : Nat)
    (dstIp : String) (dstPort : Nat) (st : ConnectionBuffers) (cnt : Nat) :
    ConnectionBuffers × Nat × List CapEvent :=
  match hp : parse_http_response st.resp_buf with
  | none => (st, cnt, [])
  | some (consumed, evt0) =>
    match st.pending_request_ids with
    | [] =>
      processResponseLoop rules srcIp srcPort dstIp dstPort
        { st with resp_buf := dropConsumed st.resp_buf consumed } cnt
    | pid0 :: restIds =>
      let evt3 := respLoopEvent rules srcIp srcPort dstIp dstPort st evt0 pid0
      let r := processResponseLoop rules srcIp srcPort dstIp dstPort
        (respLoopNextState st consumed restIds evt3) cnt
      (r.1, r.2.1, CapEvent.response evt3 :: r.2.2)
termination_by st.resp_buf.length
decreasing_by
  all_goals
    have hb := parse_http_response_consumed hp
    simp only [respLoopNextState, dropConsumed]
    repeat' split
    all_goals simp only [List.length_drop, List.length_nil]
    all_goals omega

/-- The headers a streaming chunk event reuses (capture.rs lines
791-794 and 832-835). -/
def streamingChunkHeaders (st : ConnectionBuffers) : List Header :=
  st.streaming_headers.getD
    (match st.streaming_content_type with
     | some ct => [{ name := "content-type", value := ct }]
     | none => [])

/-- A streaming chunk / `[DONE]` event before endpoint enrichment
(capture.rs lines 781-801 and 822-842). -/
def streamingChunkEvent (st : ConnectionBuffers) (eid : Nat) (body : List Nat) :
    HttpResponseEvent :=
  { id := eid, timestamp := "", src_ip := "", src_port := 0,
    dst_ip := "", dst_port := 0,
    status_code := 200, reason := none, version := "1.1",
    headers := streamingChunkHeaders st,
    body_base64 := some (b64encode body),
    body_len := body.length,
    process_name := none, pid := none,
    is_llm := st.streaming_llm_provider.isSome,
    llm_provider := st.streaming_llm_provider }

/-- `streaming_resp_id.unwrap_or_else(gen_id)`: the stored id, else a
fresh one from the counter. Returns `(id, next counter)`. -/
def streamIdOrFresh (st : ConnectionBuffers) (cnt : Nat) : Nat × Nat :=
  match st.streaming_resp_id with
  | some i => (i, cnt)
  | none => (cnt, cnt + 1)

/-- The late classification of a streaming chunk (capture.rs lines
803-816): an unclassified chunk is tried against the response-body
needles and a hit is remembered in the connection state. -/
def streamTailClassify (rules : LlmRules) (st0 : ConnectionBuffers) (chunk : List Nat)
    (evt1 : HttpResponseEvent) : HttpResponseEvent × ConnectionBuffers :=
  if evt1.is_llm then (evt1, st0)
  else if isValidUtf8Ascii chunk then
    match LlmRules.match_text_only rules (bytesLossy chunk) with
    | some provider =>
      ({ evt1 with is_llm := true, llm_provider := some provider },
       { st0 with streaming_llm_provider := some provider })
    | none => (evt1, st0)
  else (evt1, st0)

/-- The streaming-chunk stage after the response loop (capture.rs lines
778-818): while streaming is active, leftover response bytes are taken
out of the buffer and emitted as one chunk event reusing the stored
response id, preserved headers and inferred content type; an
unclassified chunk is tried against the response-body needles. -/
def processStreamingTail (rules : LlmRules) (srcIp : String) (srcPort : Nat)
    (dstIp : String) (dstPort : Nat) (st : ConnectionBuffers) (cnt : Nat) :
    ConnectionBuffers × Nat × List CapEvent :=
  if st.streaming_active ∧ st.resp_buf ≠ [] then
    let chunk := st.resp_buf
    let st0 := { st with resp_buf := [] }
    let idc := streamIdOrFresh st cnt
    let evt1 := enrich_resp_with_endpoints (streamingChunkEvent st idc.1 chunk)
      srcIp srcPort dstIp dstPort
    let upd := streamTailClassify rules st0 chunk evt1
    (upd.2, idc.2, [CapEvent.response upd.1])
  else (st, cnt, [])

/-- The `[DONE]` stage (capture.rs lines 819-855): while streaming is
active and the raw packet payload contains `[DONE]`, emit a final chunk
carrying the marker and clear all streaming state and the buffer. -/
def processDoneCheck (srcIp : String) (srcPort : Nat) (dstIp : String) (dstPort : Nat)
    (payload : List Nat) (st : ConnectionBuffers) (cnt : Nat) :
    ConnectionBuffers × Nat × List CapEvent :=
  if st.streaming_active ∧ bytesHasSub payload (strBytes "[DONE]") then
    let idc := streamIdOrFresh st cnt
    let evt1 := enrich_resp_with_endpoints (streamingChunkEvent st idc.1 (strBytes "[DONE]"))
      srcIp srcPort dstIp dstPort
    let st1 := { st with
      streaming_active := false, streaming_resp_id := none,
      streaming_content_type := none, streaming_llm_provider := none,
      streaming_headers := none, resp_buf := [] }
    (st1, idc.2, [CapEvent.response evt1])
  else (st, cnt, [])

/-- The direction decision (capture.rs lines 691-701): by known
endpoints when both are set, else by the payload's first line, default
request. -/
def packetIsRequest (st : ConnectionBuffers) (p : Packet) : Bool :=
  match st.client_endpoint, st.server_endpoint with
  | some client, some server =>
    if p.src_ip = server.1 ∧ p.src_port = server.2
        ∧ p.dst_ip = client.1 ∧ p.dst_port = client.2 then false
    else if p.src_ip = client.1 ∧ p.src_port = client.2
        ∧ p.dst_ip = server.1 ∧ p.dst_port = server.2 then true
    else (guess_is_request_from_head p.payload).getD true
  | _, _ => (guess_is_request_from_head p.payload).getD true

/-- The three response-direction stages run in order on one segment
(capture.rs lines 723-856): the pairing loop, the streaming tail and
the `[DONE]` check, with their event lists concatenated. -/
def respStages (rules : LlmRules) (srcIp : String) (srcPort : Nat) (dstIp : String)
    (dstPort : Nat) (payload : List Nat) (st0 : ConnectionBuffers) (cnt : Nat) :
    ConnectionBuffers × Nat × List CapEvent :=
  let r1 := processResponseLoop rules srcIp srcPort dstIp dstPort st0 cnt
  let r2 := processStreamingTail rules srcIp srcPort dstIp dstPort r1.1 r1.2.1
  let r3 := processDoneCheck srcIp srcPort dstIp dstPort payload r2.1 r2.2.1
  (r3.1, r3.2.1, r1.2.2 ++ r2.2.2 ++ r3.2.2)

/-- Processing of one TCP segment on its connection (capture.rs lines
689-856): decide direction, record endpoints, append the payload to the
matching buffer and run the request or response pipeline. -/
def processPacket (rules : LlmRules) (st : ConnectionBuffers) (cnt : Nat) (p : Packet) :
    ConnectionBuffers × Nat × List CapEvent :=
  if packetIsRequest st p then
    let st0 := { st with
      client_endpoint := orInsert st.client_endpoint (p.src_ip, p.src_port),
      server_endpoint := orInsert st.server_endpoint (p.dst_ip, p.dst_port),
      req_buf := st.req_buf ++ p.payload }
    processRequestLoop rules p.src_ip p.src_port p.dst_ip p.dst_port st0 cnt
  else
    let st0 := { st with
      client_endpoint := orInsert st.client_endpoint (p.dst_ip, p.dst_port),
      server_endpoint := orInsert st.server_endpoint (p.src_ip, p.src_port),
      resp_buf := st.resp_buf ++ p.payload }
    respStages rules p.src_ip p.src_port p.dst_ip p.dst_port p.payload st0 cnt

/-- The capture loop restricted to one connection (one
`ConnectionBuffers` entry): fold over the packets of that connection. -/
def processPackets (rules : LlmRules) : List Packet → ConnectionBuffers → Nat →
    ConnectionBuffers × Nat × List CapEvent
  | [], st, cnt => (st, cnt, [])
  | p :: ps, st, cnt =>
    let r1 := processPacket rules st cnt p
    let r2 := processPackets rules ps r1.1 r1.2.1
    (r2.1, r2.2.1, r1.2.2 ++ r2.2.2)

/-- The event trace one connection produces. -/
def captureTrace (rules : LlmRules) (ps : List Packet) : List CapEvent :=
  (processPackets rules ps initConn 0).2.2

/-! ## Pairing invariants of the capture trace -/

/-- The ids of the request events of a trace, in emission order. -/
def reqIds (tr : List CapEvent) : List Nat :=
  tr.filterMap (fun e =>
    match e with
    | CapEvent.request q => some q.id
    | CapEvent.response _ => none)

/-- `GoodTrace seen tr`: every response event in `tr` carries the id of
a request event that precedes it (in `tr`, or among `seen`). -/
def GoodTrace : List Nat → List CapEvent → Prop
  | _, [] => True
  | seen, CapEvent.request q :: rest => GoodTrace (seen ++ [q.id]) rest
  | seen, CapEvent.response r :: rest => r.id ∈ seen ∧ GoodTrace seen rest

theorem reqIds_nil : reqIds [] = [] := rfl

theorem reqIds_append (tr₁ tr₂ : List CapEvent) :
    reqIds (tr₁ ++ tr₂) = reqIds tr₁ ++ reqIds tr₂ := by
  simp [reqIds]

theorem goodTrace_append {seen : List Nat} {tr₁ tr₂ : List CapEvent} :
    GoodTrace seen (tr₁ ++ tr₂) ↔ GoodTrace seen tr₁ ∧ GoodTrace (seen ++ reqIds tr₁) tr₂ := by
  induction tr₁ generalizing seen with
  | nil => simp [GoodTrace, reqIds]
  | cons e rest ih =>
    cases e with
    | request q =>
      rw [List.cons_append]
      rw [show GoodTrace seen (CapEvent.request q :: (rest ++ tr₂))
          = GoodTrace (seen ++ [q.id]) (rest ++ tr₂) from rfl]
      rw [show GoodTrace seen (CapEvent.request q :: rest)
          = GoodTrace (seen ++ [q.id]) rest from rfl]
      rw [show reqIds (CapEvent.request q :: rest) = q.id :: reqIds rest from rfl]
      rw [ih, List.append_assoc, List.singleton_append]
    | response r =>
      rw [List.cons_append]
      rw [show GoodTrace seen (CapEvent.response r :: (rest ++ tr₂))
          = (r.id ∈ seen ∧ GoodTrace seen (rest ++ tr₂)) from rfl]
      rw [show GoodTrace seen (CapEvent.response r :: rest)
          = (r.id ∈ seen ∧ GoodTrace seen rest) from rfl]
      rw [show reqIds (CapEvent.response r :: rest) = reqIds rest from rfl]
      rw [ih, and_assoc]

theorem goodTrace_mono {seen seen' : List Nat} {tr : List CapEvent}
    (hsub : ∀ x ∈ seen, x ∈ seen') (h : GoodTrace seen tr) : GoodTrace seen' tr := by
  induction tr generalizing seen seen' with
  | nil => trivial
  | cons e rest ih =>
    cases e with
    | request q =>
      rw [GoodTrace] at h ⊢
      apply ih _ h
      intro x hx
      rw [List.mem_append] at hx ⊢
      rcases hx with hx | hx
      · exact Or.inl (hsub x hx)
      · exact Or.inr hx
    | response r =>
      rw [GoodTrace] at h ⊢
      exact ⟨hsub _ h.1, ih hsub h.2⟩

theorem goodTrace_of_requests {seen : List Nat} {tr : List CapEvent}
    (h : ∀ e ∈ tr, ∃ q, e = CapEvent.request q) : GoodTrace seen tr := by
  induction tr generalizing seen with
  | nil => trivial
  | cons e rest ih =>
    obtain ⟨q, rfl⟩ := h e (by simp)
    rw [GoodTrace]
    exact ih (fun e he => h e (by simp [he]))

theorem goodTrace_count_one {tr tr₁ tr₂ : List CapEvent} {r : HttpResponseEvent}
    (hg : GoodTrace [] tr) (hn : (reqIds tr).Nodup)
    (hsplit : tr = tr₁ ++ CapEvent.response r :: tr₂) :
    (reqIds tr₁).count r.id = 1 := by
  subst hsplit
  rw [goodTrace_append] at hg
  have hmem : r.id ∈ reqIds tr₁ := by
    have := hg.2
    rw [GoodTrace] at this
    simpa using this.1
  have hsub : (reqIds tr₁).Nodup := by
    rw [reqIds_append] at hn
    exact List.Nodup.of_append_left hn
  exact List.count_eq_one_of_mem hsub hmem

theorem processRequestLoop_eq_none {rules : LlmRules} {a : String} {b : Nat} {c : String}
    {d : Nat} {st : ConnectionBuffers} {cnt : Nat}
    (hp : parse_http_request cnt st.req_buf = none) :
    processRequestLoop rules a b c d st cnt = (st, cnt, []) := by
  rw [processRequestLoop.eq_def]
  split
  · rfl
  · rename_i consumed2 evt02 hp2
    rw [hp] at hp2
    cases hp2

theorem processRequestLoop_eq_some {rules : LlmRules} {a : String} {b : Nat} {c : String}
    {d : Nat} {st : ConnectionBuffers} {cnt : Nat} {consumed : Nat} {evt0 : HttpRequestEvent}
    (hp : parse_http_request cnt st.req_buf = some (consumed, evt0)) :
    processRequestLoop rules a b c d st cnt
      = ((processRequestLoop rules a b c d
            (reqLoopNextState st consumed (reqLoopEvent rules a b c d evt0)) (cnt + 1)).1,
         (processRequestLoop rules a b c d
            (reqLoopNextState st consumed (reqLoopEvent rules a b c d evt0)) (cnt + 1)).2.1,
         CapEvent.request (reqLoopEvent rules a b c d evt0) ::
           (processRequestLoop rules a b c d
            (reqLoopNextState st consumed (reqLoopEvent rules a b c d evt0)) (cnt + 1)).2.2) := by
  rw [processRequestLoop.eq_def]
  split
  · rename_i hp2
    rw [hp] at hp2
    cases hp2
  · rename_i consumed2 evt02 hp2
    rw [hp] at hp2
    simp only [Option.some.injEq, Prod.mk.injEq] at hp2
    obtain ⟨rfl, rfl⟩ := hp2
    rfl

theorem processResponseLoop_eq_none {rules : LlmRules} {a : String} {b : Nat} {c : String}
    {d : Nat} {st : ConnectionBuffers} {cnt : Nat}
    (hp : parse_http_response st.resp_buf = none) :
    processResponseLoop rules a b c d st cnt = (st, cnt, []) := by
  rw [processResponseLoop.eq_def]
  split
  · rfl
  · rename_i consumed2 evt02 hp2
    rw [hp] at hp2
    cases hp2

theorem processResponseLoop_eq_drop {rules : LlmRules} {a : String} {b : Nat} {c : String}
    {d : Nat} {st : ConnectionBuffers} {cnt : Nat} {consumed : Nat} {evt0 : HttpResponseEvent}
    (hp : parse_http_response st.resp_buf = some (consumed, evt0))
    (hq : st.pending_request_ids = []) :
    processResponseLoop rules a b c d st cnt
      = processResponseLoop rules a b c d
          { st with resp_buf := dropConsumed st.resp_buf consumed } cnt := by
  rw [processResponseLoop.eq_def]
  split
  · rename_i hp2
    rw [hp] at hp2
    cases hp2
  · rename_i consumed2 evt02 hp2
    rw [hp] at hp2
    simp only [Option.some.injEq, Prod.mk.injEq] at hp2
    obtain ⟨rfl, rfl⟩ := hp2
    rw [hq]

theorem processResponseLoop_eq_pair {rules : LlmRules} {a : String} {b : Nat} {c : String}
    {d : Nat} {st : ConnectionBuffers} {cnt : Nat} {consumed : Nat} {evt0 : HttpResponseEvent}
    {pid0 : Nat} {restIds : List Nat}
    (hp : parse_http_response st.resp_buf = some (consumed, evt0))
    (hq : st.pending_request_ids = pid0 :: restIds) :
    processResponseLoop rules a b c d st cnt
      = ((processResponseLoop rules a b c d
            (respLoopNextState st consumed restIds (respLoopEvent rules a b c d st evt0 pid0)) cnt).1,
         (processResponseLoop rules a b c d
            (respLoopNextState st consumed restIds (respLoopEvent rules a b c d st evt0 pid0)) cnt).2.1,
         CapEvent.response (respLoopEvent rules a b c d st evt0 pid0) ::
           (processResponseLoop rules a b c d
            (respLoopNextState st consumed restIds (respLoopEvent rules a b c d st evt0 pid0)) cnt).2.2) := by
  rw [processResponseLoop.eq_def]
  split
  · rename_i hp2
    rw [hp] at hp2
    cases hp2
  · rename_i consumed2 evt02 hp2
    rw [hp] at hp2
    simp only [Option.some.injEq, Prod.mk.injEq] at hp2
    obtain ⟨rfl, rfl⟩ := hp2
    rw [hq]

theorem parse_http_request_id {fid : Nat} {buf : List Nat} {c : Nat} {e : HttpRequestEvent}
    (h : parse_http_request fid buf = some (c, e)) : e.id = fid := by
  rw [parse_http_request] at h
  simp only [] at h
  split at h
  · cases h
  · split at h
    · cases h
    · split at h
      · cases h
      · split at h
        · cases h
        · split at h
          · cases h
          · simp only [Option.some.injEq, Prod.mk.injEq] at h
            obtain ⟨-, rfl⟩ := h
            rfl

theorem reqLoopEvent_id (rules : LlmRules) (a : String) (b : Nat) (c : String) (d : Nat)
    (evt0 : HttpRequestEvent) : (reqLoopEvent rules a b c d evt0).id = evt0.id := by
  rw [reqLoopEvent]
  cases LlmRules.match_request rules (enrich_req_with_endpoints evt0 a b c d) <;>
    simp [enrich_req_with_endpoints]

theorem respPairedEvent_id (a : String) (b : Nat) (c : String) (d : Nat)
    (q : List (Option String)) (evt0 : HttpResponseEvent) (pid0 : Nat) :
    (respPairedEvent a b c d q evt0 pid0).id = pid0 := by
  rw [respPairedEvent.eq_def]
  cases q <;> simp [enrich_resp_with_endpoints]

theorem respClassify_id (rules : LlmRules) (evt2 : HttpResponseEvent) :
    (respClassify rules evt2).id = evt2.id := by
  rw [respClassify]
  split
  · rfl
  · cases LlmRules.match_response rules evt2 <;> simp

theorem respLoopEvent_id (rules : LlmRules) (a : String) (b : Nat) (c : String) (d : Nat)
    (st : ConnectionBuffers) (evt0 : HttpResponseEvent) (pid0 : Nat) :
    (respLoopEvent rules a b c d st evt0 pid0).id = pid0 := by
  rw [respLoopEvent, respClassify_id, respPairedEvent_id]

theorem processRequestLoop_spec (rules : LlmRules) (a : String) (b : Nat) (c : String)
    (d : Nat) : ∀ (n : Nat) (st : ConnectionBuffers) (cnt : Nat), st.req_buf.length ≤ n →
    cnt ≤ (processRequestLoop rules a b c d st cnt).2.1 ∧
    (processRequestLoop rules a b c d st cnt).1.pending_request_ids
      = st.pending_request_ids ++ reqIds (processRequestLoop rules a b c d st cnt).2.2 ∧
    (∀ i ∈ reqIds (processRequestLoop rules a b c d st cnt).2.2,
      cnt ≤ i ∧ i < (processRequestLoop rules a b c d st cnt).2.1) ∧
    (reqIds (processRequestLoop rules a b c d st cnt).2.2).Nodup ∧
    (∀ e ∈ (processRequestLoop rules a b c d st cnt).2.2, ∃ q, e = CapEvent.request q) ∧
    (processRequestLoop rules a b c d st cnt).1.resp_buf = st.resp_buf ∧
    (processRequestLoop rules a b c d st cnt).1.streaming_active = st.streaming_active ∧
    (processRequestLoop rules a b c d st cnt).1.streaming_resp_id = st.streaming_resp_id := by
  intro n
  induction n with
  | zero =>
    intro st cnt hlen
    have hb : st.req_buf = [] := List.length_eq_zero.mp (Nat.le_zero.mp hlen)
    have hp : parse_http_request cnt st.req_buf = none := by
      rw [hb]
      rfl
    rw [processRequestLoop_eq_none hp]
    simp [reqIds]
  | succ n ih =>
    intro st cnt hlen
    match hp : parse_http_request cnt st.req_buf with
    | none =>
      rw [processRequestLoop_eq_none hp]
      simp [reqIds]
    | some (consumed, evt0) =>
      have hb := parse_http_request_consumed hp
      have hid : (reqLoopEvent rules a b c d evt0).id = cnt := by
        rw [reqLoopEvent_id]
        exact parse_http_request_id hp
      have hlen' : (reqLoopNextState st consumed (reqLoopEvent rules a b c d evt0)).req_buf.length ≤ n := by
        simp only [reqLoopNextState, dropConsumed]
        split
        · simp only [List.length_drop]
          omega
        · simp only [List.length_nil]
          omega
      obtain ⟨ih1, ih2, ih3, ih4, ih5, ih6, ih7, ih8⟩ :=
        ih (reqLoopNextState st consumed (reqLoopEvent rules a b c d evt0)) (cnt + 1) hlen'
      rw [processRequestLoop_eq_some hp]
      dsimp only
      rw [show reqIds (CapEvent.request (reqLoopEvent rules a b c d evt0) ::
          (processRequestLoop rules a b c d
            (reqLoopNextState st consumed (reqLoopEvent rules a b c d evt0)) (cnt + 1)).2.2)
          = (reqLoopEvent rules a b c d evt0).id :: reqIds (processRequestLoop rules a b c d
            (reqLoopNextState st consumed (reqLoopEvent rules a b c d evt0)) (cnt + 1)).2.2 from rfl]
      rw [hid]
      refine ⟨by omega, ?_, ?_, ?_, ?_, ?_, ?_, ?_⟩
      · rw [ih2]
        rw [show (reqLoopNextState st consumed (reqLoopEvent rules a b c d evt0)).pending_request_ids
            = st.pending_request_ids ++ [(reqLoopEvent rules a b c d evt0).id] from rfl]
        rw [hid]
        simp
      · intro i hi
        rw [List.mem_cons] at hi
        rcases hi with rfl | hi
        · omega
        · have := ih3 i hi
          omega
      · rw [List.nodup_cons]
        refine ⟨fun hmem => ?_, ih4⟩
        have := (ih3 _ hmem).1
        omega
      · intro e he
        rw [List.mem_cons] at he
        rcases he with rfl | he
        · exact ⟨reqLoopEvent rules a b c d evt0, rfl⟩
        · exact ih5 e he
      · rw [ih6]
        rfl
      · rw [ih7]
        rfl
      · rw [ih8]
        rfl

theorem goodTrace_of_responses {seen : List Nat} {tr : List CapEvent}
    (h : ∀ e ∈ tr, ∃ r, e = CapEvent.response r ∧ r.id ∈ seen) : GoodTrace seen tr := by
  induction tr with
  | nil => trivial
  | cons e rest ih =>
    obtain ⟨r, rfl, hr⟩ := h e (by simp)
    rw [GoodTrace]
    exact ⟨hr, ih (fun e he => h e (by simp [he]))⟩

theorem reqIds_of_responses {tr : List CapEvent}
    (h : ∀ e ∈ tr, ∃ r, e = CapEvent.response r) : reqIds tr = [] := by
  induction tr with
  | nil => rfl
  | cons e rest ih =>
    obtain ⟨r, rfl⟩ := h e (by simp)
    rw [show reqIds (CapEvent.response r :: rest) = reqIds rest from rfl]
    exact ih (fun e he => h e (by simp [he]))

theorem respLoopNextState_pending (st : ConnectionBuffers) (consumed : Nat)
    (restIds : List Nat) (evt3 : HttpResponseEvent) :
    (respLoopNextState st consumed restIds evt3).pending_request_ids = restIds := by
  rw [respLoopNextState.eq_def]
  dsimp only
  split <;> rfl

theorem respLoopNextState_req_buf (st : ConnectionBuffers) (consumed : Nat)
    (restIds : List Nat) (evt3 : HttpResponseEvent) :
    (respLoopNextState st consumed restIds evt3).req_buf = st.req_buf := by
  rw [respLoopNextState.eq_def]
  dsimp only
  split <;> rfl

theorem respLoopNextState_streaming (st : ConnectionBuffers) (consumed : Nat)
    (restIds : List Nat) (evt3 : HttpResponseEvent) :
    ((respLoopNextState st consumed restIds evt3).streaming_active = true
      ∧ (respLoopNextState st consumed restIds evt3).streaming_resp_id = some evt3.id)
    ∨ ((respLoopNextState st consumed restIds evt3).streaming_active = st.streaming_active
      ∧ (respLoopNextState st consumed restIds evt3).streaming_resp_id = st.streaming_resp_id) := by
  rw [respLoopNextState.eq_def]
  dsimp only
  split
  · exact Or.inl ⟨rfl, rfl⟩
  · exact Or.inr ⟨rfl, rfl⟩

theorem processResponseLoop_spec (rules : LlmRules) (a : String) (b : Nat) (c : String)
    (d : Nat) : ∀ (n : Nat) (st : ConnectionBuffers) (cnt : Nat), st.resp_buf.length ≤ n →
    (processResponseLoop rules a b c d st cnt).2.1 = cnt ∧
    (∃ k, (processResponseLoop rules a b c d st cnt).1.pending_request_ids
      = st.pending_request_ids.drop k) ∧
    (∀ e ∈ (processResponseLoop rules a b c d st cnt).2.2,
      ∃ r, e = CapEvent.response r ∧ r.id ∈ st.pending_request_ids) ∧
    (processResponseLoop rules a b c d st cnt).1.req_buf = st.req_buf ∧
    (∀ i, (processResponseLoop rules a b c d st cnt).1.streaming_resp_id = some i →
      st.streaming_resp_id = some i ∨ i ∈ st.pending_request_ids) ∧
    ((st.streaming_active = true → st.streaming_resp_id.isSome) →
      (processResponseLoop rules a b c d st cnt).1.streaming_active = true →
      (processResponseLoop rules a b c d st cnt).1.streaming_resp_id.isSome) := by
  intro n
  induction n with
  | zero =>
    intro st cnt hlen
    have hb : st.resp_buf = [] := List.length_eq_zero.mp (Nat.le_zero.mp hlen)
    have hp : parse_http_response st.resp_buf = none := by
      rw [hb]
      rfl
    rw [processResponseLoop_eq_none hp]
    refine ⟨rfl, ⟨0, rfl⟩, by simp, rfl, fun i hi => Or.inl hi, fun h => h⟩
  | succ n ih =>
    intro st cnt hlen
    match hp : parse_http_response st.resp_buf with
    | none =>
      rw [processResponseLoop_eq_none hp]
      refine ⟨rfl, ⟨0, rfl⟩, by simp, rfl, fun i hi => Or.inl hi, fun h => h⟩
    | some (consumed, evt0) =>
      have hb := parse_http_response_consumed hp
      rcases (show st.pending_request_ids = [] ∨ ∃ x xs, st.pending_request_ids = x :: xs from
        match st.pending_request_ids with
        | [] => Or.inl rfl
        | x :: xs => Or.inr ⟨x, xs, rfl⟩) with hq | ⟨pid0, restIds, hq⟩
      · rw [processResponseLoop_eq_drop hp hq]
        have hlen' : ({ st with resp_buf := dropConsumed st.resp_buf consumed } :
            ConnectionBuffers).resp_buf.length ≤ n := by
          simp only [dropConsumed]
          split
          · simp only [List.length_drop]
            omega
          · simp only [List.length_nil]
            omega
        obtain ⟨ih1, ⟨k, ih2⟩, ih3, ih4, ih5, ih6⟩ :=
          ih { st with resp_buf := dropConsumed st.resp_buf consumed } cnt hlen'
        refine ⟨ih1, ⟨k, ih2⟩, ?_, ih4, ?_, ih6⟩
        · intro e he
          obtain ⟨r, rfl, hr⟩ := ih3 e he
          have hr' : r.id ∈ st.pending_request_ids := hr
          rw [hq] at hr'
          cases hr'
        · intro i hi
          rcases ih5 i hi with h | h
          · exact Or.inl h
          · have h' : i ∈ st.pending_request_ids := h
            rw [hq] at h'
            cases h'
      · rw [processResponseLoop_eq_pair hp hq]
        dsimp only
        have hid : (respLoopEvent rules a b c d st evt0 pid0).id = pid0 :=
          respLoopEvent_id rules a b c d st evt0 pid0
        have hlen' : (respLoopNextState st consumed restIds
            (respLoopEvent rules a b c d st evt0 pid0)).resp_buf.length ≤ n := by
          rw [respLoopNextState.eq_def]
          dsimp only
          have hd : (dropConsumed st.resp_buf consumed).length ≤ n := by
            simp only [dropConsumed]
            split
            · simp only [List.length_drop]
              omega
            · simp only [List.length_nil]
              omega
          split <;> exact hd
        obtain ⟨ih1, ⟨k, ih2⟩, ih3, ih4, ih5, ih6⟩ :=
          ih (respLoopNextState st consumed restIds
            (respLoopEvent rules a b c d st evt0 pid0)) cnt hlen'
        refine ⟨ih1, ?_, ?_, ?_, ?_, ?_⟩
        · refine ⟨k + 1, ?_⟩
          rw [ih2, respLoopNextState_pending, hq]
          rfl
        · intro e he
          rw [List.mem_cons] at he
          rcases he with rfl | he
          · exact ⟨respLoopEvent rules a b c d st evt0 pid0, rfl, by rw [hid, hq]; simp⟩
          · obtain ⟨r, rfl, hr⟩ := ih3 e he
            rw [respLoopNextState_pending] at hr
            exact ⟨r, rfl, by rw [hq]; simp [hr]⟩
        · rw [ih4, respLoopNextState_req_buf]
        · intro i hi
          rcases ih5 i hi with h | h
          · rcases respLoopNextState_streaming st consumed restIds
              (respLoopEvent rules a b c d st evt0 pid0) with ⟨-, h2⟩ | ⟨-, h2⟩
            · rw [h2] at h
              injection h with h
              right
              rw [hq, ← h, hid]
              simp
            · rw [h2] at h
              exact Or.inl h
          · rw [respLoopNextState_pending] at h
            right
            rw [hq]
            simp [h]
        · intro hst hact
          apply ih6 ?_ hact
          intro hact1
          rcases respLoopNextState_streaming st consumed restIds
            (respLoopEvent rules a b c d st evt0 pid0) with ⟨-, h2⟩ | ⟨h1, h2⟩
          · rw [h2]
            rfl
          · rw [h2]
            rw [h1] at hact1
            exact hst hact1

theorem streamTailClassify_id (rules : LlmRules) (st0 : ConnectionBuffers)
    (chunk : List Nat) (evt1 : HttpResponseEvent) :
    (streamTailClassify rules st0 chunk evt1).1.id = evt1.id := by
  rw [streamTailClassify]
  repeat' split
  all_goals rfl

theorem streamTailClassify_state (rules : LlmRules) (st0 : ConnectionBuffers)
    (chunk : List Nat) (evt1 : HttpResponseEvent) :
    (streamTailClassify rules st0 chunk evt1).2.pending_request_ids
      = st0.pending_request_ids ∧
    (streamTailClassify rules st0 chunk evt1).2.streaming_resp_id = st0.streaming_resp_id ∧
    (streamTailClassify rules st0 chunk evt1).2.streaming_active = st0.streaming_active := by
  rw [streamTailClassify]
  repeat' split
  all_goals exact ⟨rfl, rfl, rfl⟩

theorem processStreamingTail_spec (rules : LlmRules) (a : String) (b : Nat) (c : String)
    (d : Nat) (st : ConnectionBuffers) (cnt : Nat)
    (h3 : st.streaming_active = true → st.streaming_resp_id.isSome) :
    (processStreamingTail rules a b c d st cnt).2.1 = cnt ∧
    (∀ e ∈ (processStreamingTail rules a b c d st cnt).2.2,
      ∃ r, e = CapEvent.response r ∧ st.streaming_resp_id = some r.id) ∧
    (processStreamingTail rules a b c d st cnt).1.pending_request_ids
      = st.pending_request_ids ∧
    (processStreamingTail rules a b c d st cnt).1.streaming_resp_id
      = st.streaming_resp_id ∧
    (processStreamingTail rules a b c d st cnt).1.streaming_active
      = st.streaming_active := by
  by_cases hcond : st.streaming_active ∧ st.resp_buf ≠ []
  · obtain ⟨i, hi⟩ := Option.isSome_iff_exists.mp (h3 hcond.1)
    have hidc : streamIdOrFresh st cnt = (i, cnt) := by
      rw [streamIdOrFresh, hi]
    rw [processStreamingTail, if_pos hcond]
    simp only []
    rw [hidc]
    obtain ⟨hs1, hs2, hs3⟩ := streamTailClassify_state rules { st with resp_buf := [] }
      st.resp_buf
      (enrich_resp_with_endpoints (streamingChunkEvent st (i, cnt).1 st.resp_buf) a b c d)
    refine ⟨rfl, ?_, hs1, hs2, hs3⟩
    intro e he
    rw [List.mem_singleton] at he
    subst he
    refine ⟨_, rfl, ?_⟩
    rw [hi, streamTailClassify_id]
    rfl
  · rw [processStreamingTail, if_neg hcond]
    exact ⟨rfl, by simp, rfl, rfl, rfl⟩

theorem processDoneCheck_spec (a : String) (b : Nat) (c : String) (d : Nat)
    (payload : List Nat) (st : ConnectionBuffers) (cnt : Nat)
    (h3 : st.streaming_active = true → st.streaming_resp_id.isSome) :
    (processDoneCheck a b c d payload st cnt).2.1 = cnt ∧
    (∀ e ∈ (processDoneCheck a b c d payload st cnt).2.2,
      ∃ r, e = CapEvent.response r ∧ st.streaming_resp_id = some r.id) ∧
    (processDoneCheck a b c d payload st cnt).1.pending_request_ids
      = st.pending_request_ids ∧
    (∀ i, (processDoneCheck a b c d payload st cnt).1.streaming_resp_id = some i →
      st.streaming_resp_id = some i) ∧
    ((processDoneCheck a b c d payload st cnt).1.streaming_active = true →
      (processDoneCheck a b c d payload st cnt).1.streaming_resp_id.isSome) := by
  by_cases hcond : st.streaming_active ∧ bytesHasSub payload (strBytes "[DONE]")
  · obtain ⟨i, hi⟩ := Option.isSome_iff_exists.mp (h3 hcond.1)
    have hidc : streamIdOrFresh st cnt = (i, cnt) := by
      rw [streamIdOrFresh, hi]
    rw [processDoneCheck, if_pos hcond]
    simp only []
    rw [hidc]
    refine ⟨?_, ?_, ?_, ?_, ?_⟩
    · exact rfl
    · intro e he
      rw [List.mem_singleton] at he
      subst he
      refine ⟨_, rfl, ?_⟩
      rw [hi]
      rfl
    · trivial
    · intro j hj
      have hj2 : (none : Option Nat) = some j := hj
      exact Option.noConfusion hj2
    · intro hact
      have hact2 : false = true := hact
      exact Bool.noConfusion hact2
  · rw [processDoneCheck, if_neg hcond]
    exact ⟨rfl, by simp, rfl, fun i hi => hi, h3⟩

theorem respStages_spec (rules : LlmRules) (a : String) (b : Nat) (c : String) (d : Nat)
    (payload : List Nat) (st0 : ConnectionBuffers) (cnt : Nat) (seen : List Nat)
    (hP1 : ∀ i ∈ st0.pending_request_ids, i ∈ seen)
    (hP2 : ∀ i, st0.streaming_resp_id = some i → i ∈ seen)
    (hP3 : st0.streaming_active = true → st0.streaming_resp_id.isSome) :
    (respStages rules a b c d payload st0 cnt).2.1 = cnt ∧
    (∀ e ∈ (respStages rules a b c d payload st0 cnt).2.2,
      ∃ r, e = CapEvent.response r ∧ r.id ∈ seen) ∧
    (∀ i ∈ (respStages rules a b c d payload st0 cnt).1.pending_request_ids, i ∈ seen) ∧
    (∀ i, (respStages rules a b c d payload st0 cnt).1.streaming_resp_id = some i →
      i ∈ seen) ∧
    ((respStages rules a b c d payload st0 cnt).1.streaming_active = true →
      (respStages rules a b c d payload st0 cnt).1.streaming_resp_id.isSome) := by
  obtain ⟨hr1, ⟨k, hr2⟩, hr3, hr4, hr5, hr6⟩ :=
    processResponseLoop_spec rules a b c d st0.resp_buf.length st0 cnt (le_refl _)
  have hP3r1 : (processResponseLoop rules a b c d st0 cnt).1.streaming_active = true →
      (processResponseLoop rules a b c d st0 cnt).1.streaming_resp_id.isSome := hr6 hP3
  obtain ⟨ht1, ht2, ht3, ht4, ht5⟩ := processStreamingTail_spec rules a b c d
    (processResponseLoop rules a b c d st0 cnt).1
    (processResponseLoop rules a b c d st0 cnt).2.1 hP3r1
  have hP3r2 : (processStreamingTail rules a b c d
      (processResponseLoop rules a b c d st0 cnt).1
      (processResponseLoop rules a b c d st0 cnt).2.1).1.streaming_active = true →
      (processStreamingTail rules a b c d
      (processResponseLoop rules a b c d st0 cnt).1
      (processResponseLoop rules a b c d st0 cnt).2.1).1.streaming_resp_id.isSome := by
    intro hact
    rw [ht4]
    apply hP3r1
    rw [← ht5]
    exact hact
  obtain ⟨hd1, hd2, hd3, hd4, hd5⟩ := processDoneCheck_spec a b c d payload
    (processStreamingTail rules a b c d
      (processResponseLoop rules a b c d st0 cnt).1
      (processResponseLoop rules a b c d st0 cnt).2.1).1
    (processStreamingTail rules a b c d
      (processResponseLoop rules a b c d st0 cnt).1
      (processResponseLoop rules a b c d st0 cnt).2.1).2.1 hP3r2
  have hidr1 : ∀ i, (processResponseLoop rules a b c d st0 cnt).1.streaming_resp_id
      = some i → i ∈ seen := by
    intro i hi
    rcases hr5 i hi with h | h
    · exact hP2 i h
    · exact hP1 i h
  rw [respStages]
  simp only []
  refine ⟨?_, ?_, ?_, ?_, hd5⟩
  · rw [hd1, ht1, hr1]
  · intro e he
    rw [List.append_assoc, List.mem_append, List.mem_append] at he
    rcases he with he | he | he
    · obtain ⟨r, hr, hrid⟩ := hr3 e he
      exact ⟨r, hr, hP1 _ hrid⟩
    · obtain ⟨r, hr, hrid⟩ := ht2 e he
      exact ⟨r, hr, hidr1 _ hrid⟩
    · obtain ⟨r, hr, hrid⟩ := hd2 e he
      rw [ht4] at hrid
      exact ⟨r, hr, hidr1 _ hrid⟩
  · intro i hi
    rw [hd3, ht3, hr2] at hi
    exact hP1 i (List.drop_subset _ _ hi)
  · intro i hi
    rw [hd4 i hi] at ht4
    exact hidr1 i ht4.symm

/-- The per-connection invariant of the capture loop: every pending
request id and every stored streaming response id was already emitted
as a request event (`seen`), streaming never runs without a stored id,
all emitted ids are below the id counter, and no id was emitted twice. -/
def StInv (st : ConnectionBuffers) (cnt : Nat) (seen : List Nat) : Prop :=
  (∀ i ∈ st.pending_request_ids, i ∈ seen) ∧
  (∀ i, st.streaming_resp_id = some i → i ∈ seen) ∧
  (st.streaming_active = true → st.streaming_resp_id.isSome) ∧
  (∀ i ∈ seen, i < cnt) ∧
  seen.Nodup

theorem stInv_init : StInv initConn 0 [] := by
  refine ⟨?_, ?_, ?_, ?_, List.nodup_nil⟩
  · intro i hi
    exact absurd hi (List.not_mem_nil i)
  · intro i hi
    exact Option.noConfusion hi
  · intro h
    exact Bool.noConfusion h
  · intro i hi
    exact absurd hi (List.not_mem_nil i)

theorem processPacket_spec (rules : LlmRules) (st : ConnectionBuffers) (cnt : Nat)
    (p : Packet) (seen : List Nat) (hinv : StInv st cnt seen) :
    StInv (processPacket rules st cnt p).1 (processPacket rules st cnt p).2.1
      (seen ++ reqIds (processPacket rules st cnt p).2.2) ∧
    GoodTrace seen (processPacket rules st cnt p).2.2 := by
  obtain ⟨hP1, hP2, hP3, hP4, hP5⟩ := hinv
  rw [processPacket]
  split
  · simp only []
    obtain ⟨h1, h2, h3, h4, h5, h6, h7, h8⟩ :=
      processRequestLoop_spec rules p.src_ip p.src_port p.dst_ip p.dst_port
        ({ st with
            client_endpoint := orInsert st.client_endpoint (p.src_ip, p.src_port)
            server_endpoint := orInsert st.server_endpoint (p.dst_ip, p.dst_port)
            req_buf := st.req_buf ++ p.payload } : ConnectionBuffers).req_buf.length
        { st with
            client_endpoint := orInsert st.client_endpoint (p.src_ip, p.src_port)
            server_endpoint := orInsert st.server_endpoint (p.dst_ip, p.dst_port)
            req_buf := st.req_buf ++ p.payload } cnt (le_refl _)
    refine ⟨⟨?_, ?_, ?_, ?_, ?_⟩, goodTrace_of_requests h5⟩
    · intro i hi
      rw [h2] at hi
      rw [List.mem_append] at hi
      rw [List.mem_append]
      rcases hi with hi | hi
      · exact Or.inl (hP1 i hi)
      · exact Or.inr hi
    · intro i hi
      rw [h8] at hi
      rw [List.mem_append]
      exact Or.inl (hP2 i hi)
    · intro hact
      rw [h8]
      rw [h7] at hact
      exact hP3 hact
    · intro i hi
      rw [List.mem_append] at hi
      rcases hi with hi | hi
      · have := hP4 i hi
        omega
      · exact (h3 i hi).2
    · refine List.Nodup.append hP5 h4 ?_
      intro x hx hx2
      have hlt := hP4 x hx
      have hge := (h3 x hx2).1
      omega
  · simp only []
    obtain ⟨hs1, hs2, hs3, hs4, hs5⟩ :=
      respStages_spec rules p.src_ip p.src_port p.dst_ip p.dst_port p.payload
        { st with
            client_endpoint := orInsert st.client_endpoint (p.dst_ip, p.dst_port)
            server_endpoint := orInsert st.server_endpoint (p.src_ip, p.src_port)
            resp_buf := st.resp_buf ++ p.payload } cnt seen hP1 hP2 hP3
    have hreq : reqIds (respStages rules p.src_ip p.src_port p.dst_ip p.dst_port p.payload
        { st with
            client_endpoint := orInsert st.client_endpoint (p.dst_ip, p.dst_port)
            server_endpoint := orInsert st.server_endpoint (p.src_ip, p.src_port)
            resp_buf := st.resp_buf ++ p.payload } cnt).2.2 = [] := by
      refine reqIds_of_responses ?_
      intro e he
      obtain ⟨r, hr, -⟩ := hs2 e he
      exact ⟨r, hr⟩
    rw [hreq, List.append_nil, hs1]
    exact ⟨⟨hs3, hs4, hs5, hP4, hP5⟩, goodTrace_of_responses hs2⟩

theorem processPackets_spec (rules : LlmRules) : ∀ (ps : List Packet)
    (st : ConnectionBuffers) (cnt : Nat) (seen : List Nat), StInv st cnt seen →
    StInv (processPackets rules ps st cnt).1 (processPackets rules ps st cnt).2.1
      (seen ++ reqIds (processPackets rules ps st cnt).2.2) ∧
    GoodTrace seen (processPackets rules ps st cnt).2.2 := by
  intro ps
  induction ps with
  | nil =>
    intro st cnt seen hinv
    refine ⟨?_, trivial⟩
    rw [show processPackets rules [] st cnt = (st, cnt, []) from rfl]
    rw [reqIds_nil, List.append_nil]
    exact hinv
  | cons p ps ih =>
    intro st cnt seen hinv
    obtain ⟨hi1, hg1⟩ := processPacket_spec rules st cnt p seen hinv
    obtain ⟨hi2, hg2⟩ := ih (processPacket rules st cnt p).1 (processPacket rules st cnt p).2.1
      (seen ++ reqIds (processPacket rules st cnt p).2.2) hi1
    rw [show processPackets rules (p :: ps) st cnt
        = ((processPackets rules ps (processPacket rules st cnt p).1
             (processPacket rules st cnt p).2.1).1,
           (processPackets rules ps (processPacket rules st cnt p).1
             (processPacket rules st cnt p).2.1).2.1,
           (processPacket rules st cnt p).2.2
             ++ (processPackets rules ps (processPacket rules st cnt p).1
                  (processPacket rules st cnt p).2.1).2.2) from rfl]
    constructor
    · rw [reqIds_append, ← List.append_assoc]
      exact hi2
    · rw [goodTrace_append]
      exact ⟨hg1, hg2⟩

theorem captureTrace_good (rules : LlmRules) (ps : List Packet) :
    GoodTrace [] (captureTrace rules ps) ∧ (reqIds (captureTrace rules ps)).Nodup := by
  obtain ⟨hinv, hg⟩ := processPackets_spec rules ps initConn 0 [] stInv_init
  refine ⟨hg, ?_⟩
  have hnd := hinv.2.2.2.2
  rw [List.nil_append] at hnd
  exact hnd

theorem processResponseLoop_no_pending (rules : LlmRules) (a : String) (b : Nat)
    (c : String) (d : Nat) (st : ConnectionBuffers) (cnt : Nat)
    (hq : st.pending_request_ids = []) :
    (processResponseLoop rules a b c d st cnt).2.2 = [] ∧
    (processResponseLoop rules a b c d st cnt).1.pending_request_ids = [] := by
  obtain ⟨h1, ⟨k, h2⟩, h3, h4, h5, h6⟩ :=
    processResponseLoop_spec rules a b c d st.resp_buf.length st cnt (le_refl _)
  constructor
  · refine List.eq_nil_iff_forall_not_mem.mpr ?_
    intro e he
    obtain ⟨r, hr, hmem⟩ := h3 e he
    rw [hq] at hmem
    exact List.not_mem_nil _ hmem
  · rw [h2, hq, List.drop_nil]

/-! ## C1: FIFO pairing of the capture loop -/

/-- Placeholder events (used only as `getD` defaults below). -/
def dummyRespEvent : HttpResponseEvent := streamingChunkEvent initConn 0 []

def dummyReqEvent : HttpRequestEvent :=
  { id := 0, timestamp := "", src_ip := "", src_port := 0, dst_ip := "", dst_port := 0,
    method := "", path := "", version := "", headers := [], body_base64 := none,
    body_len := 0, process_name := none, pid := none, is_llm := false,
    llm_provider := none }

/-- A complete POST request with empty body, as raw bytes. -/
def c1ReqBuf : List Nat :=
  strBytes "POST /v1/chat/completions HTTP/1.1\r\ncontent-length: 0\r\n\r\n"

/-- A complete 200 response with empty body, as raw bytes. -/
def c1RespBuf : List Nat := strBytes "HTTP/1.1 200 OK\r\ncontent-length: 0\r\n\r\n"

/-- Two segments of one connection: the request, then the response. -/
def c1P1 : Packet :=
  { src_ip := "10.0.0.2", src_port := 40000, dst_ip := "10.0.0.9", dst_port := 1234,
    payload := c1ReqBuf }

def c1P2 : Packet :=
  { src_ip := "10.0.0.9", src_port := 1234, dst_ip := "10.0.0.2", dst_port := 40000,
    payload := c1RespBuf }

def c1Packets : List Packet := [c1P1, c1P2]

/-- The trace of `c1Packets` under the default rules. -/
def c1Trace : List CapEvent := captureTrace defaultLlmRules c1Packets

/-- The parses of the two heads. -/
def c1ReqConsumed : Nat := ((parse_http_request 0 c1ReqBuf).getD (0, dummyReqEvent)).1

def c1ReqEvt0 : HttpRequestEvent :=
  ((parse_http_request 0 c1ReqBuf).getD (0, dummyReqEvent)).2

def c1Consumed : Nat := ((parse_http_response c1RespBuf).getD (0, dummyRespEvent)).1

def c1Evt0 : HttpResponseEvent := ((parse_http_response c1RespBuf).getD (0, dummyRespEvent)).2

/-- The emitted request event and the connection state after the first
segment. -/
def c1QEvt : HttpRequestEvent :=
  reqLoopEvent defaultLlmRules "10.0.0.2" 40000 "10.0.0.9" 1234 c1ReqEvt0

def c1St1 : ConnectionBuffers :=
  reqLoopNextState { initConn with
    client_endpoint := some ("10.0.0.2", 40000)
    server_endpoint := some ("10.0.0.9", 1234)
    req_buf := c1ReqBuf } c1ReqConsumed c1QEvt

/-- The state with the response bytes buffered, the emitted response
event, and the final state. -/
def c1StResp : ConnectionBuffers := { c1St1 with
  resp_buf := c1St1.resp_buf ++ c1RespBuf }

def c1REvt : HttpResponseEvent :=
  respLoopEvent defaultLlmRules "10.0.0.9" 1234 "10.0.0.2" 40000 c1StResp c1Evt0 0

def c1St2 : ConnectionBuffers := respLoopNextState c1StResp c1Consumed [] c1REvt

def c1St0 : ConnectionBuffers := { initConn with
  req_buf := initConn.req_buf ++ c1P1.payload
  client_endpoint := orInsert initConn.client_endpoint (c1P1.src_ip, c1P1.src_port)
  server_endpoint := orInsert initConn.server_endpoint (c1P1.dst_ip, c1P1.dst_port) }

def c1St0b : ConnectionBuffers := { c1St1 with
  resp_buf := c1St1.resp_buf ++ c1P2.payload
  client_endpoint := orInsert c1St1.client_endpoint (c1P2.dst_ip, c1P2.dst_port)
  server_endpoint := orInsert c1St1.server_endpoint (c1P2.src_ip, c1P2.src_port) }

theorem c1_step1 : processPacket defaultLlmRules initConn 0 c1P1
    = (c1St1, 1, [CapEvent.request c1QEvt]) := by
  rw [processPacket]
  rw [if_pos (show packetIsRequest initConn c1P1 = true by decide)]
  simp only []
  show processRequestLoop defaultLlmRules c1P1.src_ip c1P1.src_port c1P1.dst_ip
    c1P1.dst_port c1St0 0 = _
  rw [processRequestLoop_eq_some
    (show parse_http_request 0 c1St0.req_buf = some (c1ReqConsumed, c1ReqEvt0) from rfl)]
  rw [processRequestLoop_eq_none
    (show parse_http_request 1 (reqLoopNextState c1St0 c1ReqConsumed
      (reqLoopEvent defaultLlmRules c1P1.src_ip c1P1.src_port c1P1.dst_ip c1P1.dst_port
        c1ReqEvt0)).req_buf = none from rfl)]
  rfl

theorem c1_step2 : processPacket defaultLlmRules c1St1 1 c1P2
    = (c1St2, 1, [CapEvent.response c1REvt]) := by
  rw [processPacket]
  rw [if_neg (show ¬ (packetIsRequest c1St1 c1P2 = true) by decide)]
  show respStages defaultLlmRules c1P2.src_ip c1P2.src_port c1P2.dst_ip c1P2.dst_port
    c1P2.payload c1St0b 1 = _
  rw [respStages]
  rw [processResponseLoop_eq_pair
    (show parse_http_response c1St0b.resp_buf = some (c1Consumed, c1Evt0) from rfl)
    (show c1St0b.pending_request_ids = (0 : Nat) :: [] from rfl)]
  rw [processResponseLoop_eq_none
    (show parse_http_response (respLoopNextState c1St0b c1Consumed []
      (respLoopEvent defaultLlmRules c1P2.src_ip c1P2.src_port c1P2.dst_ip c1P2.dst_port
        c1St0b c1Evt0 0)).resp_buf = none from rfl)]
  rfl

theorem c1Trace_eq : c1Trace = [CapEvent.request c1QEvt, CapEvent.response c1REvt] := by
  rw [show c1Trace = (processPackets defaultLlmRules (c1P1 :: c1P2 :: []) initConn 0).2.2
    from rfl]
  rw [show processPackets defaultLlmRules (c1P1 :: c1P2 :: []) initConn 0
      = ((processPackets defaultLlmRules [c1P2] (processPacket defaultLlmRules initConn 0 c1P1).1
           (processPacket defaultLlmRules initConn 0 c1P1).2.1).1,
         (processPackets defaultLlmRules [c1P2] (processPacket defaultLlmRules initConn 0 c1P1).1
           (processPacket defaultLlmRules initConn 0 c1P1).2.1).2.1,
         (processPacket defaultLlmRules initConn 0 c1P1).2.2
           ++ (processPackets defaultLlmRules [c1P2] (processPacket defaultLlmRules initConn 0 c1P1).1
                (processPacket defaultLlmRules initConn 0 c1P1).2.1).2.2) from rfl]
  rw [c1_step1]
  dsimp only
  rw [show processPackets defaultLlmRules (c1P2 :: []) c1St1 1
      = ((processPackets defaultLlmRules [] (processPacket defaultLlmRules c1St1 1 c1P2).1
           (processPacket defaultLlmRules c1St1 1 c1P2).2.1).1,
         (processPackets defaultLlmRules [] (processPacket defaultLlmRules c1St1 1 c1P2).1
           (processPacket defaultLlmRules c1St1 1 c1P2).2.1).2.1,
         (processPacket defaultLlmRules c1St1 1 c1P2).2.2
           ++ (processPackets defaultLlmRules [] (processPacket defaultLlmRules c1St1 1 c1P2).1
                (processPacket defaultLlmRules c1St1 1 c1P2).2.1).2.2) from rfl]
  rw [c1_step2]
  dsimp only
  rfl

/-- A connection state holding a complete response with no pending
request id, and one with the pending id `5` and its hint. -/
def c1StEmpty : ConnectionBuffers := { initConn with resp_buf := c1RespBuf }

def c1StPend : ConnectionBuffers := { c1StEmpty with
  pending_request_ids := [5]
  pending_llm_provider := [none] }

/-- C1: pairing is FIFO per TCP connection. (1) For every response
event of a capture trace, exactly one earlier request event of that
trace carries the same id. (2) The request loop appends the ids of the
requests it emits at the tail of the pending queue. (3) When a complete
response is parsed while no id is pending, its bytes are dropped and
the loop continues on the shortened buffer, and (4) with an empty
pending queue the response loop emits no event at all. (5) When ids
are pending, the response event emitted first reuses the oldest
pending id, which is dequeued. -/
theorem capture_pairing_fifo (rules : LlmRules) :
    (∀ (ps : List Packet) (tr₁ tr₂ : List CapEvent) (r : HttpResponseEvent),
      captureTrace rules ps = tr₁ ++ CapEvent.response r :: tr₂ →
      (reqIds tr₁).count r.id = 1) ∧
    (∀ (a : String) (b : Nat) (c : String) (d : Nat) (st : ConnectionBuffers) (cnt : Nat),
      (processRequestLoop rules a b c d st cnt).1.pending_request_ids
        = st.pending_request_ids
          ++ reqIds (processRequestLoop rules a b c d st cnt).2.2) ∧
    (∀ (a : String) (b : Nat) (c : String) (d : Nat) (st : ConnectionBuffers) (cnt : Nat)
      (consumed : Nat) (evt0 : HttpResponseEvent),
      parse_http_response st.resp_buf = some (consumed, evt0) →
      st.pending_request_ids = [] →
      processResponseLoop rules a b c d st cnt
        = processResponseLoop rules a b c d
            { st with resp_buf := dropConsumed st.resp_buf consumed } cnt) ∧
    (∀ (a : String) (b : Nat) (c : String) (d : Nat) (st : ConnectionBuffers) (cnt : Nat),
      st.pending_request_ids = [] →
      (processResponseLoop rules a b c d st cnt).2.2 = []) ∧
    (∀ (a : String) (b : Nat) (c : String) (d : Nat) (st : ConnectionBuffers) (cnt : Nat)
      (consumed : Nat) (evt0 : HttpResponseEvent) (pid0 : Nat) (rest : List Nat),
      parse_http_response st.resp_buf = some (consumed, evt0) →
      st.pending_request_ids = pid0 :: rest →
      (processResponseLoop rules a b c d st cnt).2.2.head?
        = some (CapEvent.response (respLoopEvent rules a b c d st evt0 pid0))
      ∧ (respLoopEvent rules a b c d st evt0 pid0).id = pid0
      ∧ (respLoopNextState st consumed rest
          (respLoopEvent rules a b c d st evt0 pid0)).pending_request_ids = rest) := by
  refine ⟨?_, ?_, ?_, ?_, ?_⟩
  · intro ps tr₁ tr₂ r hsplit
    obtain ⟨hg, hn⟩ := captureTrace_good rules ps
    exact goodTrace_count_one hg hn hsplit
  · intro a b c d st cnt
    exact (processRequestLoop_spec rules a b c d st.req_buf.length st cnt (le_refl _)).2.1
  · intro a b c d st cnt consumed evt0 hp hq
    exact processResponseLoop_eq_drop hp hq
  · intro a b c d st cnt hq
    exact (processResponseLoop_no_pending rules a b c d st cnt hq).1
  · intro a b c d st cnt consumed evt0 pid0 rest hp hq
    rw [processResponseLoop_eq_pair hp hq]
    exact ⟨rfl, respLoopEvent_id rules a b c d st evt0 pid0,
      respLoopNextState_pending st consumed rest (respLoopEvent rules a b c d st evt0 pid0)⟩

theorem capture_pairing_fifo_witness :
    (reqIds (c1Trace.take 1)).count c1REvt.id = 1 ∧
    processResponseLoop defaultLlmRules "10.0.0.9" 1234 "10.0.0.2" 40000 c1StEmpty 7
      = processResponseLoop defaultLlmRules "10.0.0.9" 1234 "10.0.0.2" 40000
          { c1StEmpty with resp_buf := dropConsumed c1StEmpty.resp_buf c1Consumed } 7 ∧
    (processResponseLoop defaultLlmRules "10.0.0.9" 1234 "10.0.0.2" 40000 c1StEmpty 7).2.2
      = [] ∧
    (processResponseLoop defaultLlmRules "10.0.0.9" 1234 "10.0.0.2" 40000 c1StPend 7).2.2.head?
      = some (CapEvent.response (respLoopEvent defaultLlmRules "10.0.0.9" 1234 "10.0.0.2"
          40000 c1StPend c1Evt0 5)) := by
  refine ⟨?_, ?_, ?_, ?_⟩
  · exact (capture_pairing_fifo defaultLlmRules).1 c1Packets (c1Trace.take 1) [] c1REvt
      (by rw [show captureTrace defaultLlmRules c1Packets = c1Trace from rfl, c1Trace_eq]
          rfl)
  · exact (capture_pairing_fifo defaultLlmRules).2.2.1 "10.0.0.9" 1234 "10.0.0.2" 40000
      c1StEmpty 7 c1Consumed c1Evt0 (by rfl) rfl
  · exact (capture_pairing_fifo defaultLlmRules).2.2.2.1 "10.0.0.9" 1234 "10.0.0.2" 40000
      c1StEmpty 7 rfl
  · exact ((capture_pairing_fifo defaultLlmRules).2.2.2.2 "10.0.0.9" 1234 "10.0.0.2" 40000
      c1StPend 7 c1Consumed c1Evt0 5 [] (by rfl) rfl).1

/-! ## C9: `body_len` equals the decoded body length

The remaining emission sites of the proxy are transcribed below:
`PlainHttpRequest::build_event` (proxy/parse.rs lines 79-114), the
MITM request event (proxy/mitm_service.rs lines 166-188), the
upstream-proxy head and chunk events (proxy/mitm_handlers.rs lines
102-120 and 147-163), the direct-upstream head and chunk events
(proxy/mitm_handlers.rs lines 228-245 and 279-296) and the plain-HTTP
flow head and chunk events (proxy/flows.rs lines 189-208 and 212-231).
`gen_id()`, `now_rfc3339()` and `try_lookup_process` are modelled as a
parameter, `""` and `(none, none)` as before. -/

/-- `body_len` matches `body_base64`: a `None` body is empty, a `Some`
body base64-decodes to exactly `body_len` bytes. -/
def bodyInv (bb : Option (List Nat)) (bl : Nat) : Prop :=
  match bb with
  | none => bl = 0
  | some s => ∃ bytes, b64decode s = some bytes ∧ bytes.length = bl

theorem bodyInv_encode (body : List Nat) (h : ∀ x ∈ body, x < 256) :
    bodyInv (if body.isEmpty then none else some (b64encode body)) body.length := by
  by_cases hb : body.isEmpty
  · rw [if_pos hb]
    rw [bodyInv]
    rw [List.isEmpty_iff] at hb
    rw [hb]
    rfl
  · rw [if_neg hb]
    exact ⟨body, b64_roundtrip body h, rfl⟩

theorem bodyInv_encode_some (body : List Nat) (h : ∀ x ∈ body, x < 256) :
    bodyInv (some (b64encode body)) body.length :=
  ⟨body, b64_roundtrip body h, rfl⟩

/-- `PlainHttpRequest` (proxy/parse.rs lines 53-62). -/
structure PlainHttpRequest where
  method : String
  full_path : String
  version : String
  headers : List Header
  host : String
  port : Nat
  body : List Nat

/-- `rest[idx..]` from the first `/`, or `"/"` when there is none. -/
def originFormSuffix (rest : List Char) : String :=
  match rest.dropWhile (fun ch => ch ≠ '/') with
  | [] => "/"
  | l => String.mk l

/-- `PlainHttpRequest::origin_form_path` (proxy/parse.rs lines 65-77). -/
def PlainHttpRequest.origin_form_path (r : PlainHttpRequest) : String :=
  if strStartsWith r.full_path "http://" then
    originFormSuffix (r.full_path.toList.drop 7)
  else if strStartsWith r.full_path "https://" then
    originFormSuffix (r.full_path.toList.drop 8)
  else r.full_path

/-- `PlainHttpRequest::build_event` (proxy/parse.rs lines 79-114). -/
def PlainHttpRequest.build_event (r : PlainHttpRequest) (freshId : Nat) (peerIp : String)
    (peerPort : Nat) (rules : LlmRules) : HttpRequestEvent :=
  let event : HttpRequestEvent :=
    { id := freshId, timestamp := "", src_ip := peerIp, src_port := peerPort,
      dst_ip := r.host, dst_port := r.port, method := r.method,
      path := r.origin_form_path, version := r.version, headers := r.headers,
      body_base64 := if r.body.isEmpty then none else some (b64encode r.body),
      body_len := r.body.length,
      process_name := none, pid := none, is_llm := false, llm_provider := none }
  match LlmRules.match_request rules event with
  | some provider => { event with is_llm := true, llm_provider := some provider }
  | none => event

/-- The MITM request event (proxy/mitm_service.rs lines 166-188). -/
def mitmReqEvent (freshId : Nat) (peerIp : String) (peerPort : Nat) (host : String)
    (port : Nat) (method : String) (pathQ : String) (versionLabel : String)
    (headersVec : List Header) (bodyBytes : List Nat) : HttpRequestEvent :=
  { id := freshId, timestamp := "", src_ip := peerIp, src_port := peerPort,
    dst_ip := host, dst_port := port, method := method, path := pathQ,
    version := versionLabel, headers := headersVec,
    body_base64 := if bodyBytes.isEmpty then none else some (b64encode bodyBytes),
    body_len := bodyBytes.length,
    process_name := none, pid := none, is_llm := false, llm_provider := none }

/-- The upstream-proxy response head event (proxy/mitm_handlers.rs
lines 102-120). -/
def upstreamProxyHeadEvent (id : Nat) (host : String) (port : Nat) (peerIp : String)
    (peerPort : Nat) (scode : Nat) (reasonPhrase : String) (versionStr : String)
    (respHeaders : List Header) (firstBodySlice : List Nat) : HttpResponseEvent :=
  { id := id, timestamp := "", src_ip := host, src_port := port,
    dst_ip := peerIp, dst_port := peerPort, status_code := scode,
    reason := if reasonPhrase = "" then none else some reasonPhrase,
    version := versionStr, headers := respHeaders,
    body_base64 := if firstBodySlice.isEmpty then none
      else some (b64encode firstBodySlice),
    body_len := firstBodySlice.length,
    process_name := none, pid := none, is_llm := false, llm_provider := none }

/-- The upstream-proxy streaming chunk event (proxy/mitm_handlers.rs
lines 147-163). -/
def upstreamProxyChunkEvent (id : Nat) (host : String) (port : Nat) (peerIp : String)
    (peerPort : Nat) (scode : Nat) (versionStr : String) (respHeaders : List Header)
    (chunk : List Nat) : HttpResponseEvent :=
  { id := id, timestamp := "", src_ip := host, src_port := port,
    dst_ip := peerIp, dst_port := peerPort, status_code := scode,
    reason := none, version := versionStr, headers := respHeaders,
    body_base64 := some (b64encode chunk),
    body_len := chunk.length,
    process_name := none, pid := none, is_llm := false, llm_provider := none }

/-- The direct-upstream response head event (proxy/mitm_handlers.rs
lines 228-245): the head itself carries no body. -/
def directHeadEvent (id : Nat) (host : String) (port : Nat) (peerIp : String)
    (peerPort : Nat) (scode : Nat) (versionLabel : String)
    (respHeaders : List Header) : HttpResponseEvent :=
  { id := id, timestamp := "", src_ip := host, src_port := port,
    dst_ip := peerIp, dst_port := peerPort, status_code := scode,
    reason := none, version := versionLabel, headers := respHeaders,
    body_base64 := none, body_len := 0,
    process_name := none, pid := none, is_llm := false, llm_provider := none }

/-- The direct-upstream streaming chunk event (proxy/mitm_handlers.rs
lines 279-296). -/
def directChunkEvent (id : Nat) (host : String) (port : Nat) (peerIp : String)
    (peerPort : Nat) (scode : Nat) (versionLabel : String) (respHeaders : List Header)
    (bytes : List Nat) : HttpResponseEvent :=
  { id := id, timestamp := "", src_ip := host, src_port := port,
    dst_ip := peerIp, dst_port := peerPort, status_code := scode,
    reason := none, version := versionLabel, headers := respHeaders,
    body_base64 := some (b64encode bytes),
    body_len := bytes.length,
    process_name := none, pid := none, is_llm := false, llm_provider := none }

/-- The plain-HTTP flow head event (proxy/flows.rs lines 189-208). -/
def flowFirstEvent (reqEvt : HttpRequestEvent) (host : String) (port : Nat)
    (peerIp : String) (peerPort : Nat) (scode : Nat) (versionStr : String)
    (respHeaders : List Header) (bodySlice : List Nat) : HttpResponseEvent :=
  { id := reqEvt.id, timestamp := "", src_ip := host, src_port := port,
    dst_ip := peerIp, dst_port := peerPort, status_code := scode,
    reason := none, version := versionStr, headers := respHeaders,
    body_base64 := if bodySlice.isEmpty then none else some (b64encode bodySlice),
    body_len := bodySlice.length,
    process_name := none, pid := none,
    is_llm := reqEvt.is_llm, llm_provider := reqEvt.llm_provider }

/-- The plain-HTTP flow chunk event (proxy/flows.rs lines 212-231). -/
def flowChunkEvent (reqEvt : HttpRequestEvent) (host : String) (port : Nat)
    (peerIp : String) (peerPort : Nat) (scode : Nat) (versionStr : String)
    (respHeaders : List Header) (data : List Nat) : HttpResponseEvent :=
  { id := reqEvt.id, timestamp := "", src_ip := host, src_port := port,
    dst_ip := peerIp, dst_port := peerPort, status_code := scode,
    reason := none, version := versionStr, headers := respHeaders,
    body_base64 := some (b64encode data),
    body_len := data.length,
    process_name := none, pid := none,
    is_llm := reqEvt.is_llm, llm_provider := reqEvt.llm_provider }

/-- C9: for every request and response event the program emits — the
capture parses, the capture streaming-chunk and `[DONE]` events, the
plain-HTTP request and flow events, the MITM request event and the
MITM head and chunk events on both upstream transports — `body_len`
equals the byte length of the decoded body: a `None` `body_base64`
comes with `body_len = 0`, and a `Some` one base64-decodes to exactly
`body_len` bytes. (Byte lists stand for Rust `&[u8]`, so each element
is below 256.) -/
theorem body_len_matches_decoded (rules : LlmRules) :
    (∀ (fid : Nat) (buf : List Nat) (c : Nat) (e : HttpRequestEvent),
      parse_http_request fid buf = some (c, e) → (∀ x ∈ buf, x < 256) →
      bodyInv e.body_base64 e.body_len) ∧
    (∀ (buf : List Nat) (c : Nat) (e : HttpResponseEvent),
      parse_http_response buf = some (c, e) → (∀ x ∈ buf, x < 256) →
      bodyInv e.body_base64 e.body_len) ∧
    (∀ (st : ConnectionBuffers) (eid : Nat) (body : List Nat), (∀ x ∈ body, x < 256) →
      bodyInv (streamingChunkEvent st eid body).body_base64
        (streamingChunkEvent st eid body).body_len) ∧
    (∀ (r : PlainHttpRequest) (fid : Nat) (ip : String) (pp : Nat),
      (∀ x ∈ r.body, x < 256) →
      bodyInv (r.build_event fid ip pp rules).body_base64
        (r.build_event fid ip pp rules).body_len) ∧
    (∀ (fid : Nat) (ip : String) (pp : Nat) (h : String) (po : Nat) (m pa v : String)
      (hs : List Header) (body : List Nat), (∀ x ∈ body, x < 256) →
      bodyInv (mitmReqEvent fid ip pp h po m pa v hs body).body_base64
        (mitmReqEvent fid ip pp h po m pa v hs body).body_len) ∧
    (∀ (i : Nat) (h : String) (po : Nat) (ip : String) (pp sc : Nat) (re v : String)
      (hs : List Header) (body : List Nat), (∀ x ∈ body, x < 256) →
      bodyInv (upstreamProxyHeadEvent i h po ip pp sc re v hs body).body_base64
        (upstreamProxyHeadEvent i h po ip pp sc re v hs body).body_len) ∧
    (∀ (i : Nat) (h : String) (po : Nat) (ip : String) (pp sc : Nat) (v : String)
      (hs : List Header) (body : List Nat), (∀ x ∈ body, x < 256) →
      bodyInv (upstreamProxyChunkEvent i h po ip pp sc v hs body).body_base64
        (upstreamProxyChunkEvent i h po ip pp sc v hs body).body_len) ∧
    (∀ (i : Nat) (h : String) (po : Nat) (ip : String) (pp sc : Nat) (v : String)
      (hs : List Header),
      bodyInv (directHeadEvent i h po ip pp sc v hs).body_base64
        (directHeadEvent i h po ip pp sc v hs).body_len) ∧
    (∀ (i : Nat) (h : String) (po : Nat) (ip : String) (pp sc : Nat) (v : String)
      (hs : List Header) (body : List Nat), (∀ x ∈ body, x < 256) →
      bodyInv (directChunkEvent i h po ip pp sc v hs body).body_base64
        (directChunkEvent i h po ip pp sc v hs body).body_len) ∧
    (∀ (q : HttpRequestEvent) (h : String) (po : Nat) (ip : String) (pp sc : Nat)
      (v : String) (hs : List Header) (body : List Nat), (∀ x ∈ body, x < 256) →
      bodyInv (flowFirstEvent q h po ip pp sc v hs body).body_base64
        (flowFirstEvent q h po ip pp sc v hs body).body_len) ∧
    (∀ (q : HttpRequestEvent) (h : String) (po : Nat) (ip : String) (pp sc : Nat)
      (v : String) (hs : List Header) (body : List Nat), (∀ x ∈ body, x < 256) →
      bodyInv (flowChunkEvent q h po ip pp sc v hs body).body_base64
        (flowChunkEvent q h po ip pp sc v hs body).body_len) := by
  refine ⟨?_, ?_, ?_, ?_, ?_, ?_, ?_, ?_, ?_, ?_, ?_⟩
  · intro fid buf c e h hbuf
    rw [parse_http_request] at h
    simp only [] at h
    split at h
    · cases h
    · split at h
      · cases h
      · split at h
        · cases h
        · split at h
          · cases h
          · split at h
            · cases h
            · simp only [Option.some.injEq, Prod.mk.injEq] at h
              obtain ⟨-, rfl⟩ := h
              refine bodyInv_encode _ (fun x hx => hbuf x ?_)
              exact List.take_subset _ _ (List.drop_subset _ _ hx)
  · intro buf c e h hbuf
    rw [parse_http_response] at h
    simp only [] at h
    split at h
    · cases h
    · split at h
      · cases h
      · split at h
        · cases h
        · split at h
          · cases h
          · split at h
            · cases h
            · simp only [Option.some.injEq, Prod.mk.injEq] at h
              obtain ⟨-, rfl⟩ := h
              refine bodyInv_encode _ (fun x hx => hbuf x ?_)
              exact List.take_subset _ _ (List.drop_subset _ _ hx)
  · intro st eid body hb
    exact bodyInv_encode_some body hb
  · intro r fid ip pp hb
    rw [PlainHttpRequest.build_event]
    simp only []
    split
    · exact bodyInv_encode r.body hb
    · exact bodyInv_encode r.body hb
  · intro fid ip pp h po m pa v hs body hb
    exact bodyInv_encode body hb
  · intro i h po ip pp sc re v hs body hb
    exact bodyInv_encode body hb
  · intro i h po ip pp sc v hs body hb
    exact bodyInv_encode_some body hb
  · intro i h po ip pp sc v hs
    rfl
  · intro i h po ip pp sc v hs body hb
    exact bodyInv_encode_some body hb
  · intro q h po ip pp sc v hs body hb
    exact bodyInv_encode body hb
  · intro q h po ip pp sc v hs body hb
    exact bodyInv_encode_some body hb

/-- A concrete plain-HTTP request for the witness. -/
def c9Plain : PlainHttpRequest :=
  { method := "POST", full_path := "http://h.example/v1/chat/completions",
    version := "1.1", headers := [], host := "h.example", port := 80,
    body := strBytes "\x7b\x22model\x22:\x22x\x22\x7d" }

theorem body_len_matches_decoded_witness :
    bodyInv c1ReqEvt0.body_base64 c1ReqEvt0.body_len ∧
    bodyInv c1Evt0.body_base64 c1Evt0.body_len ∧
    bodyInv (streamingChunkEvent initConn 0 (strBytes "data: hi")).body_base64
      (streamingChunkEvent initConn 0 (strBytes "data: hi")).body_len ∧
    bodyInv (c9Plain.build_event 4 "127.0.0.1" 5555 defaultLlmRules).body_base64
      (c9Plain.build_event 4 "127.0.0.1" 5555 defaultLlmRules).body_len ∧
    bodyInv (mitmReqEvent 4 "127.0.0.1" 5555 "h" 443 "POST" "/p" "1.1" []
        (strBytes "hello")).body_base64
      (mitmReqEvent 4 "127.0.0.1" 5555 "h" 443 "POST" "/p" "1.1" []
        (strBytes "hello")).body_len ∧
    bodyInv (upstreamProxyHeadEvent 4 "h" 443 "127.0.0.1" 5555 200 "OK" "1.1" []
        (strBytes "hello")).body_base64
      (upstreamProxyHeadEvent 4 "h" 443 "127.0.0.1" 5555 200 "OK" "1.1" []
        (strBytes "hello")).body_len ∧
    bodyInv (upstreamProxyChunkEvent 4 "h" 443 "127.0.0.1" 5555 200 "1.1" []
        (strBytes "hello")).body_base64
      (upstreamProxyChunkEvent 4 "h" 443 "127.0.0.1" 5555 200 "1.1" []
        (strBytes "hello")).body_len ∧
    bodyInv (directHeadEvent 4 "h" 443 "127.0.0.1" 5555 200 "1.1" []).body_base64
      (directHeadEvent 4 "h" 443 "127.0.0.1" 5555 200 "1.1" []).body_len ∧
    bodyInv (directChunkEvent 4 "h" 443 "127.0.0.1" 5555 200 "1.1" []
        (strBytes "hello")).body_base64
      (directChunkEvent 4 "h" 443 "127.0.0.1" 5555 200 "1.1" []
        (strBytes "hello")).body_len ∧
    bodyInv (flowFirstEvent dummyReqEvent "h" 80 "127.0.0.1" 5555 200 "1.1" []
        (strBytes "hello")).body_base64
      (flowFirstEvent dummyReqEvent "h" 80 "127.0.0.1" 5555 200 "1.1" []
        (strBytes "hello")).body_len ∧
    bodyInv (flowChunkEvent dummyReqEvent "h" 80 "127.0.0.1" 5555 200 "1.1" []
        (strBytes "hello")).body_base64
      (flowChunkEvent dummyReqEvent "h" 80 "127.0.0.1" 5555 200 "1.1" []
        (strBytes "hello")).body_len := by
  refine ⟨?_, ?_, ?_, ?_, ?_, ?_, ?_, ?_, ?_, ?_, ?_⟩
  · exact (body_len_matches_decoded defaultLlmRules).1 0 c1ReqBuf c1ReqConsumed c1ReqEvt0
      (by rfl) (by decide)
  · exact (body_len_matches_decoded defaultLlmRules).2.1 c1RespBuf c1Consumed c1Evt0
      (by rfl) (by decide)
  · exact (body_len_matches_decoded defaultLlmRules).2.2.1 initConn 0 _ (by decide)
  · exact (body_len_matches_decoded defaultLlmRules).2.2.2.1 c9Plain 4 "127.0.0.1" 5555
      (by decide)
  · exact (body_len_matches_decoded defaultLlmRules).2.2.2.2.1 4 "127.0.0.1" 5555 "h" 443
      "POST" "/p" "1.1" [] _ (by decide)
  · exact (body_len_matches_decoded defaultLlmRules).2.2.2.2.2.1 4 "h" 443 "127.0.0.1"
      5555 200 "OK" "1.1" [] _ (by decide)
  · exact (body_len_matches_decoded defaultLlmRules).2.2.2.2.2.2.1 4 "h" 443 "127.0.0.1"
      5555 200 "1.1" [] _ (by decide)
  · exact (body_len_matches_decoded defaultLlmRules).2.2.2.2.2.2.2.1 4 "h" 443 "127.0.0.1"
      5555 200 "1.1" []
  · exact (body_len_matches_decoded defaultLlmRules).2.2.2.2.2.2.2.2.1 4 "h" 443
      "127.0.0.1" 5555 200 "1.1" [] _ (by decide)
  · exact (body_len_matches_decoded defaultLlmRules).2.2.2.2.2.2.2.2.2.1 dummyReqEvent "h"
      80 "127.0.0.1" 5555 200 "1.1" [] _ (by decide)
  · exact (body_len_matches_decoded defaultLlmRules).2.2.2.2.2.2.2.2.2.2 dummyReqEvent "h"
      80 "127.0.0.1" 5555 200 "1.1" [] _ (by decide)
